import Mathlib

/-!
Verification development for the contact-manifold maintenance core of the
edyn rigid-body physics engine: broadphase pair tracking, the narrowphase
per-manifold pipeline (collide, merge, insertion, prune), the persistent
contact-point lifecycle, the serial vs. parallel orchestration, and the
island-delta builder.

Scalars are modelled as rationals; machine floating point is replaced by
exact arithmetic, so all statements about thresholds are exact.
-/

attribute [local semireducible] Rat.add Rat.mul Rat.sub Rat.inv

namespace EdynModel

/-- Three-component vector, mirroring `edyn::vector3`. -/
structure V3 where
  x : ℚ
  y : ℚ
  z : ℚ
  deriving DecidableEq, Repr

instance : Add V3 := ⟨fun a b => ⟨a.x + b.x, a.y + b.y, a.z + b.z⟩⟩

instance : Sub V3 := ⟨fun a b => ⟨a.x - b.x, a.y - b.y, a.z - b.z⟩⟩

/-- Scalar multiplication of a vector, as in `edyn::operator*(scalar, vector3)`. -/
def vsmul (s : ℚ) (v : V3) : V3 := ⟨s * v.x, s * v.y, s * v.z⟩

/-- Dot product, `edyn::dot`. -/
def dot (a b : V3) : ℚ := a.x * b.x + a.y * b.y + a.z * b.z

/-- Squared length, `edyn::length_sqr`. -/
def length_sqr (v : V3) : ℚ := dot v v

/-- Cross product, `edyn::cross`. -/
def cross (a b : V3) : V3 :=
  ⟨a.y * b.z - a.z * b.y, a.z * b.x - a.x * b.z, a.x * b.y - a.y * b.x⟩

/-- The zero vector. -/
def v3zero : V3 := ⟨0, 0, 0⟩

/-- The all-ones vector, `edyn::vector3_one`. -/
def vector3_one : V3 := ⟨1, 1, 1⟩

/-- Quaternion, mirroring `edyn::quaternion` (x, y, z, w components). -/
structure Quat where
  x : ℚ
  y : ℚ
  z : ℚ
  w : ℚ
  deriving DecidableEq, Repr

/-- Modelled from the spec: `rotate(orn, v)` rotates a local-space vector
into world space by a quaternion (`edyn/math/quaternion.hpp` is not part of
the sources under review).  The standard sandwich-product formula
`v + 2 (qv × (qv × v + w v))` is used. -/
def rotate (q : Quat) (v : V3) : V3 :=
  let qv : V3 := ⟨q.x, q.y, q.z⟩
  v + vsmul 2 (cross qv (cross qv v + vsmul q.w v))

/-- The identity quaternion (no rotation). -/
def quat_identity : Quat := ⟨0, 0, 0, 1⟩

/-- Modelled from the spec: `CONTACT_BREAKING_THRESHOLD`, the maximum
separation at which a contact is kept; the suggested value is `0.02` length
units (the defining header `edyn/math/constants.hpp` is not part of the
sources under review). -/
def contact_breaking_threshold : ℚ := 1 / 50

/-- Modelled from the spec: `CACHING_THRESHOLD`, the maximum pivot drift at
which an incoming contact is considered the same as a persisted one; the
suggested value equals `CONTACT_BREAKING_THRESHOLD`. -/
def contact_caching_threshold : ℚ := 1 / 50

/-- Modelled from the spec: `LARGE_SCALAR`, the sentinel meaning rigid for
stiffness and damping; an implementation-defined large finite value. -/
def large_scalar : ℚ := 1000000000

/-- Modelled from the spec: `MAX_CONTACTS`, the per-manifold capacity (= 4). -/
def max_contacts : ℕ := 4

/-- Axis-aligned bounding box in world space, mirroring `edyn::AABB`. -/
structure Box where
  min : V3
  max : V3
  deriving DecidableEq, Repr

/-- Modelled from the spec: `AABB::inset(v)` moves `min` up by `v` and `max`
down by `v`; insetting by a negative offset therefore inflates the box, which
is how both broadphase passes and the narrowphase broad check use it
(`edyn/comp/aabb.hpp` is not part of the sources under review). -/
def Box.inset (b : Box) (v : V3) : Box := ⟨b.min + v, b.max - v⟩

/-- Modelled from the spec: AABB intersection test, true when the boxes
overlap on every axis. -/
def intersect (a b : Box) : Bool :=
  a.min.x ≤ b.max.x && b.min.x ≤ a.max.x &&
  (a.min.y ≤ b.max.y && b.min.y ≤ a.max.y) &&
  (a.min.z ≤ b.max.z && b.min.z ≤ a.max.z)

/-! ## Narrowphase data model -/

/-- One point produced by the shape-pair `collide` routine, mirroring
`collision_result::collision_point`: anchors in the two bodies' local frames,
the normal in body B's local frame, and the signed separation. -/
structure CollisionPoint where
  pivotA : V3
  pivotB : V3
  normalB : V3
  distance : ℚ
  deriving DecidableEq, Repr

/-- A persistent contact point, mirroring `edyn::contact_point` (the body
pair is carried by the surrounding manifold model, so `body` is not
repeated here). -/
structure ContactPoint where
  pivotA : V3
  pivotB : V3
  normalB : V3
  friction : ℚ
  restitution : ℚ
  lifetime : ℕ
  distance : ℚ
  deriving DecidableEq, Repr

/-- A contact-point entity as owned by one manifold slot: its entity id, its
`contact_point` component, and the warm-start impulses of the rows of its
contact constraint (`constraint_row_data::impulse`). -/
structure Entry where
  id : ℕ
  cp : ContactPoint
  impulses : List ℚ
  deriving DecidableEq, Repr

instance : Inhabited ContactPoint := ⟨⟨v3zero, v3zero, v3zero, 0, 0, 0, 0⟩⟩

instance : Inhabited Entry := ⟨⟨0, default, []⟩⟩

/-- `merge_point`: overwrite the kinematic fields of a `contact_point` with
those of an incoming `collision_point` (lifetime, friction, restitution and
impulses untouched). -/
def merge_point (rp : CollisionPoint) (cp : ContactPoint) : ContactPoint :=
  { cp with pivotA := rp.pivotA, pivotB := rp.pivotB,
            normalB := rp.normalB, distance := rp.distance }

/-- The score `find_nearest_contact` minimises for an existing point: the
smaller of the squared pivot drifts in body A's and body B's local frame. -/
def pointDist (rp : CollisionPoint) (e : Entry) : ℚ :=
  min (length_sqr (rp.pivotA - e.cp.pivotA)) (length_sqr (rp.pivotB - e.cp.pivotB))

/-- Loop of `find_nearest_contact`: scan the points carrying the running
shortest squared distance and best index, with the two sequential `if`
statements of the source (`dA` first, then `dB` against the possibly
updated shortest distance). Returns the final best index and shortest
distance. -/
def fncLoop (rp : CollisionPoint) : List Entry → ℕ → ℚ → ℕ → ℕ × ℚ
  | [], _, short, best => (best, short)
  | e :: rest, i, short, best =>
    let dA := length_sqr (rp.pivotA - e.cp.pivotA)
    let dB := length_sqr (rp.pivotB - e.cp.pivotB)
    let s1 := if dA < short then dA else short
    let b1 := if dA < short then i else best
    let s2 := if dB < s1 then dB else s1
    let b2 := if dB < s1 then i else b1
    fncLoop rp rest (i + 1) s2 b2

/-- `find_nearest_contact`: the index of the existing contact point nearest
to the incoming point, starting the search radius at
`contact_caching_threshold²`; returns `num_points` when no point is close
enough. -/
def find_nearest_contact (pts : List Entry) (rp : CollisionPoint) : ℕ :=
  (fncLoop rp pts 0 (contact_caching_threshold * contact_caching_threshold) pts.length).1

/-- The insertion-index selection exactly as `process_collision` performs it:
fill `pivots` with the existing points' `pivotB` and `distances` with their
distances and call `insert_index`; if that returns no slot, refill `pivots` —
again with `pivotB`, although the source comment says `pivotA` is tried
first — and call `insert_index` a second time.  `insert_index` itself lives
in `edyn/math/geom.hpp`, outside the sources under review, and is passed in
as a pure function. -/
def chooseInsertIndex (ins : List V3 → List ℚ → ℕ → V3 → ℚ → ℕ)
    (pts : List Entry) (rp : CollisionPoint) : ℕ :=
  let pivots := pts.map (fun e => e.cp.pivotB)
  let distances := pts.map (fun e => e.cp.distance)
  let idx := ins pivots distances pts.length rp.pivotB rp.distance
  if pts.length ≤ idx then
    let pivots2 := pts.map (fun e => e.cp.pivotB)
    ins pivots2 distances pts.length rp.pivotB rp.distance
  else
    idx

/-- Modelled from the spec: the sub-capacity branch of `insert_index`
(`edyn/math/geom.hpp` is not part of the sources under review): when
`num_points < MAX_CONTACTS` the incoming point is appended at index
`num_points`.  At full capacity the reference heuristic picks an
area-maximising replacement slot or returns `MAX_CONTACTS` to discard; this
model always discards at capacity, one of the allowed outcomes, and no
statement below exercises the full-capacity branch. -/
def insert_index_model (_pivots : List V3) (_distances : List ℚ) (numPoints : ℕ)
    (_pivot : V3) (_distance : ℚ) : ℕ :=
  if numPoints < max_contacts then numPoints else max_contacts

/-- The in-place part of processing one incoming collision point, shared by
the serial and the parallel paths of `process_collision`: merge onto the
nearest existing point (lifetime incremented, impulses untouched), or — when
the insertion index names an existing slot — replace that point (lifetime
reset, every constraint-row impulse zeroed).  When the insertion index equals
`num_points` the point must be created as a new contact, which is the
caller's job (`new_point_func`), so it is returned; an index past
`max_contacts` discards the point. -/
def processPoint (ins : List V3 → List ℚ → ℕ → V3 → ℚ → ℕ)
    (pts : List Entry) (rp : CollisionPoint) : List Entry × Option CollisionPoint :=
  let nearest_idx := find_nearest_contact pts rp
  if nearest_idx < pts.length then
    let e := pts.getD nearest_idx default
    (pts.set nearest_idx
      { e with cp := merge_point rp { e.cp with lifetime := e.cp.lifetime + 1 } }, none)
  else
    let idx := chooseInsertIndex ins pts rp
    if idx < max_contacts then
      if idx = pts.length then
        (pts, some rp)
      else
        let e := pts.getD idx default
        (pts.set idx
          { id := e.id, cp := merge_point rp { e.cp with lifetime := 0 },
            impulses := e.impulses.map (fun _ => 0) }, none)
    else
      (pts, none)

/-! ## Materials and contact creation -/

/-- The `material` component of a body: restitution, friction, stiffness and
damping. -/
structure Material where
  restitution : ℚ
  friction : ℚ
  stiffness : ℚ
  damping : ℚ
  deriving DecidableEq, Repr

/-- What `create_contact_constraint` computes: the contact point's material
products and the `contact_constraint`'s stiffness and damping. -/
structure ConstraintSetup where
  restitution : ℚ
  friction : ℚ
  stiffness : ℚ
  damping : ℚ
  deriving DecidableEq, Repr

/-- `create_contact_constraint`: restitution and friction are the products of
the two materials'; stiffness and damping start at `large_scalar` and are
replaced by the series combinations when either material's stiffness is below
`large_scalar`. -/
def create_contact_constraint (mA mB : Material) : ConstraintSetup :=
  { restitution := mA.restitution * mB.restitution
    friction := mA.friction * mB.friction
    stiffness :=
      if mA.stiffness < large_scalar ∨ mB.stiffness < large_scalar then
        1 / (1 / mA.stiffness + 1 / mB.stiffness)
      else large_scalar
    damping :=
      if mA.stiffness < large_scalar ∨ mB.stiffness < large_scalar then
        1 / (1 / mA.damping + 1 / mB.damping)
      else large_scalar }

/-- The contact-point entity built by `create_contact_point` for incoming
point `rp`: friction, restitution and lifetime start at zero, the kinematic
fields come from `rp`; when both bodies carry a `material` component,
`create_contact_constraint` fills friction and restitution and builds the
contact constraint (whose rows, created later by the solver, start empty
here). -/
def create_contact_point (matA matB : Option Material) (freshId : ℕ)
    (rp : CollisionPoint) : Entry :=
  match matA, matB with
  | some mA, some mB =>
    let s := create_contact_constraint mA mB
    { id := freshId
      cp := { pivotA := rp.pivotA, pivotB := rp.pivotB, normalB := rp.normalB,
              friction := s.friction, restitution := s.restitution,
              lifetime := 0, distance := rp.distance }
      impulses := [] }
  | _, _ =>
    { id := freshId
      cp := { pivotA := rp.pivotA, pivotB := rp.pivotB, normalB := rp.normalB,
              friction := 0, restitution := 0, lifetime := 0, distance := rp.distance }
      impulses := [] }

/-- Whether `create_contact_point` builds a contact constraint: exactly when
both bodies carry a `material` component. -/
def constraintBuilt (matA matB : Option Material) : Bool :=
  matA.isSome && matB.isSome

/-! ## Dirty annotations -/

/-- A dirty annotation issued on an entity, as produced by the
`registry.get_or_emplace<dirty>(...)` calls of the narrowphase:
`set_new()` plus `created<contact_point>()` on a freshly created contact
point, `updated<contact_manifold>()` on its manifold, and
`updated<contact_manifold, island_node_parent>()` on the manifold when a
contact point is destroyed. -/
inductive DirtyMark where
  | setNew (entity : ℕ)
  | createdContactPoint (entity : ℕ)
  | updatedContactManifold (entity : ℕ)
  | updatedIslandNodeParent (entity : ℕ)
  deriving DecidableEq, Repr

/-- The entity a dirty mark is attached to. -/
def DirtyMark.entity : DirtyMark → ℕ
  | .setNew e => e
  | .createdContactPoint e => e
  | .updatedContactManifold e => e
  | .updatedIslandNodeParent e => e

/-- The dirty marks issued by `create_contact_point` for a new contact entity
attached to the given manifold entity. -/
def createMarks (contactEntity manifoldEntity : ℕ) : List DirtyMark :=
  [.setNew contactEntity, .createdContactPoint contactEntity,
   .updatedContactManifold manifoldEntity]

/-- The dirty marks issued by `destroy_contact_point` (all on the manifold
entity; the contact entity itself is destroyed). -/
def destroyMarks (manifoldEntity : ℕ) : List DirtyMark :=
  [.updatedContactManifold manifoldEntity, .updatedIslandNodeParent manifoldEntity]

/-! ## Prune -/

/-- The separating test of `prune` for one contact point at the given poses:
normal separation `dn` exceeding `contact_breaking_threshold`, or squared
tangential drift exceeding `contact_breaking_threshold²`. -/
def breakCond (posA : V3) (ornA : Quat) (posB : V3) (ornB : Quat)
    (cp : ContactPoint) : Bool :=
  let pA := posA + rotate ornA cp.pivotA
  let pB := posB + rotate ornB cp.pivotB
  let n := rotate ornB cp.normalB
  let d := pA - pB
  let dn := dot d n
  let dp := d - vsmul dn n
  decide (contact_breaking_threshold < dn) ||
    decide (contact_breaking_threshold * contact_breaking_threshold < length_sqr dp)

/-- Modelled from the spec: `contact_manifold::num_points()` — slots
`[0, num_points)` hold valid contact handles and the remaining slots are
sentinel (`contact_manifold.hpp` is not part of the sources under review), so
the point count is the length of the leading run of non-sentinel slots. -/
def numPoints (l : List (Option Entry)) : ℕ := (l.takeWhile Option.isSome).length

/-- The backwards loop of `prune` on the manifold's slot array: the counter
runs from `num_points` down to `1` and slot `k = i - 1` is tested with the
separating condition; on removal, slot `k` receives the last occupied slot's
entry, that last slot becomes sentinel, and the removed entry is handed to
`destroy_point_func` (collected here in removal order). -/
def pruneLoop (cond : Entry → Bool) : ℕ → List (Option Entry) → List (Option Entry) × List Entry
  | 0, l => (l, [])
  | i + 1, l =>
    match l.getD i none with
    | none => pruneLoop cond i l
    | some e =>
      if cond e then
        let last := numPoints l - 1
        let l' := (l.set i (l.getD last none)).set last none
        let r := pruneLoop cond i l'
        (r.1, e :: r.2)
      else
        pruneLoop cond i l

/-- `prune` on the slot array: run the backwards loop starting at
`num_points`. -/
def pruneSlots (cond : Entry → Bool) (l : List (Option Entry)) :
    List (Option Entry) × List Entry :=
  pruneLoop cond (numPoints l) l

/-- `prune` on the dense representation of the slot array (the list of the
entries of slots `[0, num_points)`): the same backwards loop, where removal
writes the last element into the vacated position and drops the last
position. -/
def pruneDenseLoop (cond : Entry → Bool) : ℕ → List Entry → List Entry × List Entry
  | 0, l => (l, [])
  | i + 1, l =>
    let e := l.getD i default
    if cond e then
      let l' := (l.set i (l.getD (l.length - 1) default)).dropLast
      let r := pruneDenseLoop cond i l'
      (r.1, e :: r.2)
    else
      pruneDenseLoop cond i l

/-- `prune` on the dense representation. -/
def pruneDense (cond : Entry → Bool) (l : List Entry) : List Entry × List Entry :=
  pruneDenseLoop cond l.length l

/-! ## Per-manifold pipeline and the two orchestration paths -/

/-- One manifold as the narrowphase sees it: its entity id, the two bodies'
AABBs, poses and optional materials, the shape-pair `collide` routine for the
two bodies at their current poses (out of core scope, hence abstract), and
the dense list of owned contact points. -/
structure MSlot where
  entity : ℕ
  aabbA : Box
  aabbB : Box
  posA : V3
  ornA : Quat
  posB : V3
  ornB : Quat
  matA : Option Material
  matB : Option Material
  collideFn : Unit → List CollisionPoint
  points : List Entry

instance : Inhabited MSlot :=
  ⟨⟨0, ⟨v3zero, v3zero⟩, ⟨v3zero, v3zero⟩, v3zero, quat_identity, v3zero, quat_identity,
    none, none, fun _ => [], []⟩⟩

/-- `detect_collision`: if the first body's AABB inset by
`-contact_breaking_threshold` on every axis (i.e. inflated) does not
intersect the second body's AABB, an empty result is emitted without
invoking `collide`; otherwise the shape-pair `collide` routine produces the
result.  Nothing else is read or written: the manifold is left alone. -/
def detect_collision (aabbA aabbB : Box) (collideFn : Unit → List CollisionPoint) :
    List CollisionPoint :=
  let offset := vsmul (-contact_breaking_threshold) vector3_one
  if intersect (aabbA.inset offset) aabbB then collideFn () else []

/-- The collision result `detect_collision` produces for a manifold this
step. -/
def MSlot.result (m : MSlot) : List CollisionPoint :=
  detect_collision m.aabbA m.aabbB m.collideFn

/-- The separating condition of `prune` for a manifold's poses, as a
predicate on owned entries. -/
def MSlot.cond (m : MSlot) (e : Entry) : Bool :=
  breakCond m.posA m.ornA m.posB m.ornB e.cp

/-- `update_contact_distances`: before any other narrowphase work, recompute
every persisted point's distance from the current poses.  Both the serial and
the parallel path perform this first. -/
def update_contact_distances (m : MSlot) : MSlot :=
  { m with points := m.points.map (fun e =>
      let pivotA_world := m.posA + rotate m.ornA e.cp.pivotA
      let pivotB_world := m.posB + rotate m.ornB e.cp.pivotB
      let normal_world := rotate m.ornB e.cp.normalB
      { e with cp := { e.cp with
          distance := dot normal_world (pivotA_world - pivotB_world) } }) }

/-- Output of processing one manifold on the serial path. -/
structure StepOut where
  points : List Entry
  fresh : ℕ
  destroyedIds : List ℕ
  dirty : List DirtyMark

/-- `process_collision` on the serial path: each incoming point is merged,
replaced, or — `new_point_func` being `create_contact_point` — immediately
appended to the manifold, so later incoming points of the same result see
it.  `create_contact_point` first checks `num_points < max_contacts` and
silently drops the point otherwise. -/
def processCollisionSerial (ins : List V3 → List ℚ → ℕ → V3 → ℚ → ℕ)
    (matA matB : Option Material) (mEnt : ℕ) :
    List Entry → ℕ → List CollisionPoint → List Entry × ℕ × List DirtyMark
  | pts, fresh, [] => (pts, fresh, [])
  | pts, fresh, rp :: rps =>
    match processPoint ins pts rp with
    | (pts', none) => processCollisionSerial ins matA matB mEnt pts' fresh rps
    | (pts', some p) =>
      if max_contacts ≤ pts'.length then
        processCollisionSerial ins matA matB mEnt pts' fresh rps
      else
        let e := create_contact_point matA matB fresh p
        let r := processCollisionSerial ins matA matB mEnt (pts' ++ [e]) (fresh + 1) rps
        (r.1, r.2.1, createMarks fresh mEnt ++ r.2.2)

/-- The serial path for one manifold (`process_result`): run
`process_collision` with inline creation, then `prune` with inline
destruction (each destruction also dirtying the manifold). -/
def serialStep (ins : List V3 → List ℚ → ℕ → V3 → ℚ → ℕ) (fresh : ℕ)
    (m : MSlot) : StepOut :=
  let pc := processCollisionSerial ins m.matA m.matB m.entity m.points fresh m.result
  let pr := pruneDense m.cond pc.1
  { points := pr.1
    fresh := pc.2.1
    destroyedIds := pr.2.map (fun e => e.id)
    dirty := pc.2.2 ++ (pr.2.map (fun _ => destroyMarks m.entity)).flatten }

/-- `process_collision` on the parallel path: merges and replacements happen
in place (each manifold owns its points, so per-index data is disjoint), but
`new_point_func` only records the incoming point into this manifold's
construction-info slot, in processing order. -/
def processCollisionAsync (ins : List V3 → List ℚ → ℕ → V3 → ℚ → ℕ) :
    List Entry → List CollisionPoint → List Entry × List CollisionPoint
  | pts, [] => (pts, [])
  | pts, rp :: rps =>
    match processPoint ins pts rp with
    | (pts', none) => processCollisionAsync ins pts' rps
    | (pts', some p) =>
      let r := processCollisionAsync ins pts' rps
      (r.1, p :: r.2)

/-- The body of the `parallel_for` in `update_async` for one manifold index:
detect, process (recording constructions into this index's slot), prune
(recording destructions into this index's slot; the slot-array surgery
already happens here).  No entity is created or destroyed inside the
parallel region.  The iterations touch disjoint data, so the region is
modelled by running the body per index. -/
def asyncParallelBody (ins : List V3 → List ℚ → ℕ → V3 → ℚ → ℕ) (m : MSlot) :
    MSlot × List CollisionPoint × List ℕ :=
  let pc := processCollisionAsync ins m.points m.result
  let pr := pruneDense m.cond pc.1
  ({ m with points := pr.1 }, pc.2, pr.2.map (fun e => e.id))

/-- The creation half of `finish_async_update` for one manifold: create the
recorded points in recording order; `create_contact_point` drops a point
whenever the manifold is already full. -/
def commitCreate (matA matB : Option Material) (mEnt : ℕ) :
    List Entry → ℕ → List CollisionPoint → List Entry × ℕ × List DirtyMark
  | pts, fresh, [] => (pts, fresh, [])
  | pts, fresh, p :: ps =>
    if max_contacts ≤ pts.length then
      commitCreate matA matB mEnt pts fresh ps
    else
      let e := create_contact_point matA matB fresh p
      let r := commitCreate matA matB mEnt (pts ++ [e]) (fresh + 1) ps
      (r.1, r.2.1, createMarks fresh mEnt ++ r.2.2)

/-- The narrowphase's view of the world: the manifolds in view order, the
next fresh entity id, and the broadphase pair table (which the narrowphase
never reads or writes). -/
structure World where
  manifolds : List MSlot
  nextId : ℕ
  table : List ((ℕ × ℕ) × ℕ)

/-- Result of a whole narrowphase update. -/
structure WorldOut where
  manifolds : List MSlot
  nextId : ℕ
  table : List ((ℕ × ℕ) × ℕ)
  destroyedIds : List ℕ
  dirty : List DirtyMark

/-- The serial loop of `narrowphase::update` over the manifold view,
threading the fresh-entity counter. -/
def serialLoop (ins : List V3 → List ℚ → ℕ → V3 → ℚ → ℕ) :
    ℕ → List MSlot → List MSlot × ℕ × List ℕ × List DirtyMark
  | fresh, [] => ([], fresh, [], [])
  | fresh, m :: ms =>
    let s := serialStep ins fresh m
    let r := serialLoop ins s.fresh ms
    ({ m with points := s.points } :: r.1, r.2.1,
      s.destroyedIds ++ r.2.2.1, s.dirty ++ r.2.2.2)

/-- `narrowphase::update` (serial path): refresh contact distances, then walk
the manifolds running the pipeline with inline entity mutations.  The walk
itself (`update_contact_manifolds`, declared in the header outside the
sources under review) is modelled from the spec: for each manifold run
`detect_collision` and `process_result` inline. -/
def narrowphase_update (ins : List V3 → List ℚ → ℕ → V3 → ℚ → ℕ)
    (w : World) : WorldOut :=
  let ms := w.manifolds.map update_contact_distances
  let r := serialLoop ins w.nextId ms
  { manifolds := r.1, nextId := r.2.1, table := w.table,
    destroyedIds := r.2.2.1, dirty := r.2.2.2 }

/-- The creation commit loop of `finish_async_update`: walk the manifolds in
index order, creating each recorded point. -/
def commitCreateLoop :
    ℕ → List (MSlot × List CollisionPoint × List ℕ) →
    List (MSlot × List ℕ) × ℕ × List DirtyMark
  | fresh, [] => ([], fresh, [])
  | fresh, (m, info, des) :: rest =>
    let c := commitCreate m.matA m.matB m.entity m.points fresh info
    let r := commitCreateLoop c.2.1 rest
    (({ m with points := c.1 }, des) :: r.1, r.2.1, c.2.2 ++ r.2.2)

/-- The destruction commit loop of `finish_async_update`: walk the manifolds
in index order, destroying each recorded contact entity (the slot surgery
already happened inside the parallel region; each destruction dirties the
manifold). -/
def commitDestroyLoop : List (MSlot × List ℕ) → List MSlot × List ℕ × List DirtyMark
  | [] => ([], [], [])
  | (m, des) :: rest =>
    let r := commitDestroyLoop rest
    (m :: r.1, des ++ r.2.1, (des.map (fun _ => destroyMarks m.entity)).flatten ++ r.2.2)

/-- `narrowphase::update_async` followed — after the parallel region
completes — by `narrowphase::finish_async_update`: refresh contact
distances, run the read-only pipeline per manifold index recording side
effects per slot, then serially commit all creations in index order and then
all destructions in index order. -/
def narrowphase_update_async (ins : List V3 → List ℚ → ℕ → V3 → ℚ → ℕ)
    (w : World) : WorldOut :=
  let ms := w.manifolds.map update_contact_distances
  let par := ms.map (asyncParallelBody ins)
  let cc := commitCreateLoop w.nextId par
  let cd := commitDestroyLoop cc.1
  { manifolds := cd.1, nextId := cc.2.1, table := w.table,
    destroyedIds := cd.2.1, dirty := cc.2.2 ++ cd.2.2 }

/-- The identity of a contact point for cross-path comparison: everything
but the entity id (the parallel path allocates different ids). -/
def entryContent (e : Entry) : ContactPoint × List ℚ := (e.cp, e.impulses)

/-! ## Broadphase -/

/-- The broadphase pair table (`broadphase::relations`), an ordered-pair to
relation-entity map; the code stores both orderings of each tracked pair. -/
abbrev Table := List ((ℕ × ℕ) × ℕ)

/-- Lookup in the pair table (`relations.count` / `relations[p]`). -/
def tlookup (t : Table) (p : ℕ × ℕ) : Option ℕ :=
  (t.find? (fun kv => decide (kv.1 = p))).map (fun kv => kv.2)

/-- Erase a key from the pair table (`relations.erase`). -/
def terase (t : Table) (p : ℕ × ℕ) : Table :=
  t.filter (fun kv => decide (kv.1 ≠ p))

/-- Bind a key in the pair table (`relations[p] = ent`). -/
def tinsert (t : Table) (p : ℕ × ℕ) (v : ℕ) : Table :=
  (p, v) :: terase t p

/-- The broadphase state after the AABB refresh at the top of
`broadphase::update`: the entities carrying an `AABB` component with their
(refreshed) boxes in view order, the `relation` components in view order
(relation entity, first body, second body), the pair table, and the next
fresh entity id. -/
structure BpState where
  aabbs : List (ℕ × Box)
  rels : List (ℕ × ℕ × ℕ)
  table : Table
  nextId : ℕ

/-- The inflation offset of the broadphase destroy pass:
`-contact_breaking_threshold` scaled by `offset_scale = 2` on every axis. -/
def sepOffset : V3 :=
  ⟨-(contact_breaking_threshold * 2), -(contact_breaking_threshold * 2),
    -(contact_breaking_threshold * 2)⟩

/-- The inflation offset of the broadphase create pass:
`-contact_breaking_threshold` on every axis. -/
def createOffset : V3 :=
  ⟨-contact_breaking_threshold, -contact_breaking_threshold, -contact_breaking_threshold⟩

/-- The destroy pass of `broadphase::update`: for each `relation` component,
skip it unless the pair table maps its pair (in the relation's own order) to
this very relation entity; then, when both bodies still have an AABB and the
AABBs inset by `sepOffset` (i.e. inflated by twice the breaking threshold) no
longer intersect, record the relation for destruction and erase both
orderings of the pair from the table.  Returns the table and the recorded
relation entities. -/
def destroyPass (aabbGet : ℕ → Option Box) :
    List (ℕ × ℕ × ℕ) → Table → Table × List ℕ
  | [], t => (t, [])
  | (ent, e0, e1) :: rest, t =>
    if tlookup t (e0, e1) = some ent then
      match aabbGet e0, aabbGet e1 with
      | some b0, some b1 =>
        if intersect (b0.inset sepOffset) (b1.inset sepOffset) then
          destroyPass aabbGet rest t
        else
          let t' := terase (terase t (e0, e1)) (e1, e0)
          let r := destroyPass aabbGet rest t'
          (r.1, ent :: r.2)
      | _, _ => destroyPass aabbGet rest t
    else
      destroyPass aabbGet rest t

/-- All ordered pairs of a list in iteration order — the nested
`aabb_view` iterators of the create pass (`it`, then `it1 = it + 1`
onwards). -/
def orderedPairs : List α → List (α × α)
  | [] => []
  | x :: xs => xs.map (fun y => (x, y)) ++ orderedPairs xs

/-- The create pass of `broadphase::update`: for each ordered pair of
AABB-bearing entities, when the AABBs inset by `createOffset` (i.e. inflated
by the breaking threshold) intersect and the pair is not in the table, create
a relation entity and register it under both orderings.  (The contact
constraint built when both bodies carry `matter` is outside the claims about
this pass and not modelled.)  Returns the table, the new relations, and the
next fresh id. -/
def createPass : List ((ℕ × Box) × (ℕ × Box)) → Table → List (ℕ × ℕ × ℕ) → ℕ →
    Table × List (ℕ × ℕ × ℕ) × ℕ
  | [], t, acc, next => (t, acc, next)
  | ((e0, b0), (e1, b1)) :: ps, t, acc, next =>
    if intersect (b0.inset createOffset) (b1.inset createOffset) then
      if (tlookup t (e0, e1)).isSome then
        createPass ps t acc next
      else
        let ent := next
        let t' := tinsert (tinsert t (e0, e1) ent) (e1, e0) ent
        createPass ps t' (acc ++ [(ent, e0, e1)]) (next + 1)
    else
      createPass ps t acc next

/-- The AABB component lookup used by the destroy pass
(`registry->try_get<AABB>`). -/
def bpAabbGet (s : BpState) : ℕ → Option Box :=
  fun e => (s.aabbs.find? (fun kv => decide (kv.1 = e))).map (fun kv => kv.2)

/-- `broadphase::update` (after the AABB refresh): destroy pass over the
relation view, destruction of the recorded relation entities, then the
create pass over all ordered AABB pairs. -/
def broadphase_update (s : BpState) : BpState :=
  let d := destroyPass (bpAabbGet s) s.rels s.table
  let rels1 := s.rels.filter (fun r => decide (r.1 ∉ d.2))
  let c := createPass (orderedPairs s.aabbs) d.1 [] s.nextId
  { aabbs := s.aabbs, rels := rels1 ++ c.2.1, table := c.1, nextId := c.2.2 }

/-! ## Island delta builder -/

/-- An `island_delta` under construction: the entity map, the created and
destroyed entity lists, and — per component id — the containers prepared by
`prepare_created` / `prepare_updated` / `prepare_destroyed` and filled by
`finish` (component values are abstracted to numbers; only the shape
matters to the claims). -/
structure IslandDelta where
  entityMap : List (ℕ × ℕ)
  createdEntities : List ℕ
  destroyedEntities : List ℕ
  createdComponents : List (ℕ × List (ℕ × ℕ))
  updatedComponents : List (ℕ × List (ℕ × ℕ))
  destroyedComponents : List (ℕ × List ℕ)
  deriving DecidableEq, Repr

/-- The empty `island_delta`, the state `m_delta` has after being moved
from. -/
def IslandDelta.empty : IslandDelta := ⟨[], [], [], [], [], []⟩

/-- An `island_delta_builder`: the delta under construction plus the
per-component-id local containers (`m_created_components`,
`m_updated_components`, `m_destroyed_components`). -/
structure Builder where
  delta : IslandDelta
  createdComps : List (ℕ × List (ℕ × ℕ))
  updatedComps : List (ℕ × List (ℕ × ℕ))
  destroyedComps : List (ℕ × List ℕ)
  deriving DecidableEq, Repr

/-- `island_delta_builder::empty`: true when the delta's entity map and
created/destroyed entity lists are empty and every per-component local
container is empty. -/
def Builder.isEmpty (b : Builder) : Bool :=
  b.delta.entityMap.isEmpty && b.delta.createdEntities.isEmpty &&
    b.delta.destroyedEntities.isEmpty &&
    b.createdComps.all (fun kv => kv.2.isEmpty) &&
    b.updatedComps.all (fun kv => kv.2.isEmpty) &&
    b.destroyedComps.all (fun kv => kv.2.isEmpty)

/-- `island_delta_builder::finish`: load the local containers into the
delta's prepared containers, clear every local container, and move the delta
out — the moved-from `m_delta` is left empty, ready for the next set of
updates (as the source comment states).  Returns the shipped delta and the
builder afterwards. -/
def Builder.finish (b : Builder) : IslandDelta × Builder :=
  let load := fun (prepared : List (ℕ × List (ℕ × ℕ)))
                  (locals : List (ℕ × List (ℕ × ℕ))) =>
    prepared.map (fun kv =>
      (kv.1, ((locals.find? (fun lv => decide (lv.1 = kv.1))).map (fun lv => lv.2)).getD kv.2))
  let loadSet := fun (prepared : List (ℕ × List ℕ)) (locals : List (ℕ × List ℕ)) =>
    prepared.map (fun kv =>
      (kv.1, ((locals.find? (fun lv => decide (lv.1 = kv.1))).map (fun lv => lv.2)).getD kv.2))
  let shipped : IslandDelta :=
    { b.delta with
        createdComponents := load b.delta.createdComponents b.createdComps
        updatedComponents := load b.delta.updatedComponents b.updatedComps
        destroyedComponents := loadSet b.delta.destroyedComponents b.destroyedComps }
  (shipped,
    { delta := IslandDelta.empty
      createdComps := b.createdComps.map (fun kv => (kv.1, []))
      updatedComps := b.updatedComps.map (fun kv => (kv.1, []))
      destroyedComps := b.destroyedComps.map (fun kv => (kv.1, [])) })

/-! ## Derived predicates and concrete inputs used in the statements below -/

/-- The squared caching threshold that `find_nearest_contact` starts its
search radius at. -/
def cachingSq : ℚ := contact_caching_threshold * contact_caching_threshold

/-- The separating condition applied to a just-created contact point of a
manifold: `prune` would immediately remove such a point exactly when this
holds.  (`breakCond` reads only the kinematic fields, which come from the
incoming collision point.) -/
def rpBreaks (m : MSlot) (rp : CollisionPoint) : Bool :=
  breakCond m.posA m.ornA m.posB m.ornB
    ⟨rp.pivotA, rp.pivotB, rp.normalB, 0, 0, 0, rp.distance⟩

/-- The unit box `[0,1]³`. -/
def boxUnit : Box := ⟨⟨0, 0, 0⟩, ⟨1, 1, 1⟩⟩

/-- A far-away box `[2,3]³`. -/
def boxFar : Box := ⟨⟨2, 2, 2⟩, ⟨3, 3, 3⟩⟩

/-- An incoming collision point at the origin with normal `z` and zero
distance. -/
def rpZero : CollisionPoint := ⟨v3zero, v3zero, ⟨0, 0, 1⟩, 0⟩

/-- A manifold with no points whose collision result contains the same
incoming point twice. -/
def mTwice : MSlot :=
  ⟨0, boxUnit, boxUnit, v3zero, quat_identity, v3zero, quat_identity,
    none, none, fun _ => [rpZero, rpZero], []⟩

/-- A manifold with no points and an empty collision result. -/
def mIdle : MSlot :=
  ⟨1, boxUnit, boxUnit, v3zero, quat_identity, v3zero, quat_identity,
    none, none, fun _ => [], []⟩

/-- A world with two manifolds on which the serial and the parallel
narrowphase paths disagree: the first manifold receives two coincident
incoming points. -/
def cwC1 : World := ⟨[mTwice, mIdle], 50, []⟩

/-- An existing contact point (entity id 7) at the origin with a nonzero
lifetime and one constraint-row impulse. -/
def eC5 : Entry := ⟨7, ⟨v3zero, v3zero, ⟨0, 0, 1⟩, 0, 0, 5, 0⟩, [3]⟩

/-- An incoming point within caching distance of `eC5` but with a moved
`pivotA`. -/
def rpC5 : CollisionPoint := ⟨⟨1 / 100, 0, 0⟩, v3zero, ⟨0, 0, 1⟩, 0⟩

/-- A manifold (entity id 3) holding `eC5` whose collision result is the
nearby point `rpC5`, so the merge path runs. -/
def mC5 : MSlot :=
  ⟨3, boxUnit, boxUnit, v3zero, quat_identity, v3zero, quat_identity,
    none, none, fun _ => [rpC5], [eC5]⟩

/-- A world with the single manifold `mC5`. -/
def wC5 : World := ⟨[mC5], 100, []⟩

/-- A broadphase state with a tracked pair `(1,2)` (relation entity 10)
where body 2 no longer has an AABB component. -/
def sC3 : BpState :=
  ⟨[(1, boxUnit)], [(10, 1, 2)], [((1, 2), 10), ((2, 1), 10)], 20⟩

/-- A contact point whose tangential drift at identity poses exceeds the
breaking threshold, so `prune` removes it. -/
def eBreakC7 : Entry := ⟨9, ⟨⟨1, 0, 0⟩, v3zero, ⟨0, 0, 1⟩, 0, 0, 0, 0⟩, []⟩

/-- A second idle manifold (entity id 2). -/
def mIdle2 : MSlot :=
  ⟨2, boxUnit, boxUnit, v3zero, quat_identity, v3zero, quat_identity,
    none, none, fun _ => [], []⟩

/-- A world with two idle manifolds and a nonempty pair table. -/
def wPar : World := ⟨[mIdle, mIdle2], 10, [((1, 2), 5)]⟩

/-- The unit box shifted by one half on every axis; overlaps `boxUnit`. -/
def boxShift : Box := ⟨⟨1 / 2, 1 / 2, 1 / 2⟩, ⟨3 / 2, 3 / 2, 3 / 2⟩⟩

/-- A box separated from `boxUnit` by a gap of `0.06` on every axis: inside
the hysteresis window (more than twice, less than four times the breaking
threshold). -/
def boxGap : Box := ⟨⟨53 / 50, 53 / 50, 53 / 50⟩, ⟨103 / 50, 103 / 50, 103 / 50⟩⟩

/-- A broadphase state with two overlapping AABBs and an empty pair table. -/
def sCreate : BpState := ⟨[(1, boxUnit), (2, boxShift)], [], [], 30⟩

/-- A broadphase state tracking a pair whose AABBs are far apart. -/
def sDestroy : BpState :=
  ⟨[(1, boxUnit), (2, boxFar)], [(10, 1, 2)], [((1, 2), 10), ((2, 1), 10)], 30⟩

/-- A broadphase state tracking a pair whose AABB gap lies in the hysteresis
window. -/
def sWindow : BpState :=
  ⟨[(1, boxUnit), (2, boxGap)], [(10, 1, 2)], [((1, 2), 10), ((2, 1), 10)], 30⟩

/-! ## Theorems -/

/-! ### The nearest-contact search loop -/

lemma seq_min (dA dB short : ℚ) :
    (if dB < (if dA < short then dA else short) then dB
     else (if dA < short then dA else short)) = min short (min dA dB) := by
  simp only [min_def]
  split_ifs <;> linarith

lemma fncLoop_snd (rp : CollisionPoint) :
    ∀ (l : List Entry) (i : ℕ) (short : ℚ) (best : ℕ),
    (fncLoop rp l i short best).2 = l.foldl (fun s e => min s (pointDist rp e)) short
  | [], _, _, _ => rfl
  | e :: rest, i, short, best => by
    simp only [fncLoop, List.foldl_cons]
    rw [fncLoop_snd rp rest, seq_min]
    rfl

lemma foldl_min_le_self (f : Entry → ℚ) :
    ∀ (l : List Entry) (s : ℚ), l.foldl (fun a e => min a (f e)) s ≤ s
  | [], s => le_refl s
  | _ :: rest, _ => le_trans (foldl_min_le_self f rest _) (min_le_left _ _)

lemma foldl_min_le_mem (f : Entry → ℚ) :
    ∀ (l : List Entry) (s : ℚ) (e : Entry), e ∈ l →
      l.foldl (fun a e => min a (f e)) s ≤ f e
  | [], _, _, h => ((List.not_mem_nil _) h).elim
  | e' :: rest, s, e, h => by
    rcases List.mem_cons.mp h with rfl | h'
    · exact le_trans (foldl_min_le_self f rest _) (min_le_right _ _)
    · exact foldl_min_le_mem f rest _ e h'

lemma fncLoop_spec (rp : CollisionPoint) :
    ∀ (l : List Entry) (i : ℕ) (short : ℚ) (best : ℕ),
    ((fncLoop rp l i short best).1 = best ∧ (fncLoop rp l i short best).2 = short) ∨
    (∃ k, k < l.length ∧ (fncLoop rp l i short best).1 = i + k ∧
      (fncLoop rp l i short best).2 = pointDist rp (l.getD k default) ∧
      (fncLoop rp l i short best).2 < short)
  | [], i, short, best => Or.inl ⟨rfl, rfl⟩
  | e :: rest, i, short, best => by
    have key : ∀ s2v : ℚ, s2v = pointDist rp e → s2v < short →
        fncLoop rp (e :: rest) i short best = fncLoop rp rest (i + 1) s2v i →
        ((fncLoop rp (e :: rest) i short best).1 = best ∧
          (fncLoop rp (e :: rest) i short best).2 = short) ∨
        (∃ k, k < (e :: rest).length ∧
          (fncLoop rp (e :: rest) i short best).1 = i + k ∧
          (fncLoop rp (e :: rest) i short best).2
            = pointDist rp ((e :: rest).getD k default) ∧
          (fncLoop rp (e :: rest) i short best).2 < short) := by
      intro s2v hval hlt heq
      rw [heq]
      rcases fncLoop_spec rp rest (i + 1) s2v i with ⟨h1, h2⟩ | ⟨k, hk, h1, h2, h3⟩
      · exact Or.inr ⟨0, by simp, by simpa using h1, by simpa [hval] using h2,
          by rw [h2]; exact hlt⟩
      · exact Or.inr ⟨k + 1, by simpa using hk, by rw [h1]; omega,
          by simpa using h2, lt_trans h3 hlt⟩
    by_cases h1 : length_sqr (rp.pivotA - e.cp.pivotA) < short
    · by_cases h2 : length_sqr (rp.pivotB - e.cp.pivotB)
          < length_sqr (rp.pivotA - e.cp.pivotA)
      · refine key _ ?_ (lt_trans h2 h1) ?_
        · rw [pointDist, min_def, if_neg (not_le.mpr h2)]
        · simp only [fncLoop, if_pos h1, if_pos h2]
      · refine key _ ?_ h1 ?_
        · rw [pointDist, min_def, if_pos (not_lt.mp h2)]
        · simp only [fncLoop, if_pos h1, if_neg h2]
    · by_cases h2 : length_sqr (rp.pivotB - e.cp.pivotB) < short
      · refine key _ ?_ h2 ?_
        · have h3 := not_lt.mp h1
          rw [pointDist, min_def, if_neg (by linarith :
              ¬ length_sqr (rp.pivotA - e.cp.pivotA)
                ≤ length_sqr (rp.pivotB - e.cp.pivotB))]
        · simp only [fncLoop, if_neg h1, if_pos h2]
      · have hstep : fncLoop rp (e :: rest) i short best
            = fncLoop rp rest (i + 1) short best := by
          simp only [fncLoop, if_neg h1, if_neg h2]
        rw [hstep]
        rcases fncLoop_spec rp rest (i + 1) short best with h | ⟨k, hk, ha, hb, hc⟩
        · exact Or.inl h
        · exact Or.inr ⟨k + 1, by simpa using hk, by rw [ha]; omega,
            by simpa using hb, hc⟩

/-- C4: `find_nearest_contact` returns the existing point minimising
`min(‖rp.pivotA − cp.pivotA‖², ‖rp.pivotB − cp.pivotB‖²)`, and a match is
reported exactly when that minimum is below `CACHING_THRESHOLD²`; on a match
the point's pivots, normal and distance are overwritten from the incoming
point, its lifetime is incremented and its warm-start impulses are left
unchanged; on a replacement of an existing slot the lifetime is reset to
zero and the impulse of every constraint row of that contact is set to
zero. -/
theorem C4_nearest_merge_replace
    (ins : List V3 → List ℚ → ℕ → V3 → ℚ → ℕ) (pts : List Entry)
    (rp : CollisionPoint) (hcap : pts.length ≤ max_contacts) :
    (find_nearest_contact pts rp < pts.length →
      pointDist rp (pts.getD (find_nearest_contact pts rp) default) < cachingSq ∧
      ∀ j, j < pts.length →
        pointDist rp (pts.getD (find_nearest_contact pts rp) default)
          ≤ pointDist rp (pts.getD j default)) ∧
    ((∃ j, j < pts.length ∧ pointDist rp (pts.getD j default) < cachingSq) ↔
      find_nearest_contact pts rp < pts.length) ∧
    (∀ n, n = find_nearest_contact pts rp → n < pts.length →
      processPoint ins pts rp =
        (pts.set n
          { id := (pts.getD n default).id
            cp := { pivotA := rp.pivotA, pivotB := rp.pivotB, normalB := rp.normalB,
                    friction := (pts.getD n default).cp.friction,
                    restitution := (pts.getD n default).cp.restitution,
                    lifetime := (pts.getD n default).cp.lifetime + 1,
                    distance := rp.distance }
            impulses := (pts.getD n default).impulses }, none)) ∧
    (∀ k, find_nearest_contact pts rp = pts.length →
      chooseInsertIndex ins pts rp = k → k < pts.length →
      processPoint ins pts rp =
        (pts.set k
          { id := (pts.getD k default).id
            cp := { pivotA := rp.pivotA, pivotB := rp.pivotB, normalB := rp.normalB,
                    friction := (pts.getD k default).cp.friction,
                    restitution := (pts.getD k default).cp.restitution,
                    lifetime := 0,
                    distance := rp.distance }
            impulses := (pts.getD k default).impulses.map (fun _ => 0) }, none)) := by
  have hfnc : find_nearest_contact pts rp
      = (fncLoop rp pts 0 cachingSq pts.length).1 := rfl
  have hsnd := fncLoop_snd rp pts 0 cachingSq pts.length
  have hmono : ∀ j, j < pts.length →
      (fncLoop rp pts 0 cachingSq pts.length).2 ≤ pointDist rp (pts.getD j default) := by
    intro j hj
    rw [hsnd]
    refine foldl_min_le_mem _ pts cachingSq _ ?_
    rw [List.getD_eq_getElem _ _ hj]
    exact List.getElem_mem _
  refine ⟨?_, ?_, ?_, ?_⟩
  · intro hlt
    rcases fncLoop_spec rp pts 0 cachingSq pts.length with ⟨hb, _⟩ | ⟨k, _, hb, hs, hx⟩
    · rw [hfnc, hb] at hlt
      exact absurd hlt (lt_irrefl _)
    · have hbk : find_nearest_contact pts rp = k := by
        rw [hfnc, hb]
        omega
      constructor
      · rw [hbk, ← hs]
        exact hx
      · intro j hj
        rw [hbk, ← hs]
        exact hmono j hj
  · constructor
    · rintro ⟨j, hj, hjlt⟩
      rcases fncLoop_spec rp pts 0 cachingSq pts.length with ⟨_, hs⟩ | ⟨k, hk, hb, _, _⟩
      · have h2 := hmono j hj
        rw [hs] at h2
        exact absurd (lt_of_le_of_lt h2 hjlt) (lt_irrefl _)
      · rw [hfnc, hb]
        omega
    · intro hlt
      rcases fncLoop_spec rp pts 0 cachingSq pts.length with ⟨hb, _⟩ | ⟨k, hk, hb, hs, hx⟩
      · rw [hfnc, hb] at hlt
        exact absurd hlt (lt_irrefl _)
      · refine ⟨k, hk, ?_⟩
        rw [← hs]
        exact hx
  · intro n hn hlt
    subst hn
    simp only [processPoint, if_pos hlt]
    rfl
  · intro k hn hk hklt
    have hnot : ¬ find_nearest_contact pts rp < pts.length := by
      rw [hn]
      exact lt_irrefl _
    simp only [processPoint, if_neg hnot, hk,
      if_pos (lt_of_lt_of_le hklt hcap), if_neg (Nat.ne_of_lt hklt)]
    rfl

/-- Witness for C4 at a one-point manifold and a nearby incoming point. -/
theorem C4_witness :
    (find_nearest_contact [eC5] rpC5 < [eC5].length →
      pointDist rpC5 ([eC5].getD (find_nearest_contact [eC5] rpC5) default) < cachingSq ∧
      ∀ j, j < [eC5].length →
        pointDist rpC5 ([eC5].getD (find_nearest_contact [eC5] rpC5) default)
          ≤ pointDist rpC5 ([eC5].getD j default)) ∧
    ((∃ j, j < [eC5].length ∧ pointDist rpC5 ([eC5].getD j default) < cachingSq) ↔
      find_nearest_contact [eC5] rpC5 < [eC5].length) ∧
    (∀ n, n = find_nearest_contact [eC5] rpC5 → n < [eC5].length →
      processPoint insert_index_model [eC5] rpC5 =
        ([eC5].set n
          { id := ([eC5].getD n default).id
            cp := { pivotA := rpC5.pivotA, pivotB := rpC5.pivotB, normalB := rpC5.normalB,
                    friction := ([eC5].getD n default).cp.friction,
                    restitution := ([eC5].getD n default).cp.restitution,
                    lifetime := ([eC5].getD n default).cp.lifetime + 1,
                    distance := rpC5.distance }
            impulses := ([eC5].getD n default).impulses }, none)) ∧
    (∀ k, find_nearest_contact [eC5] rpC5 = [eC5].length →
      chooseInsertIndex insert_index_model [eC5] rpC5 = k → k < [eC5].length →
      processPoint insert_index_model [eC5] rpC5 =
        ([eC5].set k
          { id := ([eC5].getD k default).id
            cp := { pivotA := rpC5.pivotA, pivotB := rpC5.pivotB, normalB := rpC5.normalB,
                    friction := ([eC5].getD k default).cp.friction,
                    restitution := ([eC5].getD k default).cp.restitution,
                    lifetime := 0,
                    distance := rpC5.distance }
            impulses := ([eC5].getD k default).impulses.map (fun _ => 0) }, none)) :=
  C4_nearest_merge_replace insert_index_model [eC5] rpC5 (by decide)

/-- C10: immediately after `island_delta_builder::finish` returns, `empty()`
returns true: `finish` moves the accumulated delta out (resetting the entity
map and the created- and destroyed-entity lists) and clears every
per-component created/updated/destroyed container. -/
theorem C10_finish_then_empty (b : Builder) :
    ((Builder.finish b).2).isEmpty = true := by
  simp [Builder.finish, Builder.isEmpty, IslandDelta.empty, List.all_map,
    Function.comp, List.isEmpty]

/-- C6: for an incoming point with no nearest-neighbour match, the insertion
index chosen by `process_collision` equals a single evaluation of
`insert_index` over the existing points' `pivotB` values and distances —
even though the code may invoke `insert_index` a second time, it feeds
`pivotB` both times, so the second call repeats the first. -/
theorem C6_single_insert_index_evaluation
    (ins : List V3 → List ℚ → ℕ → V3 → ℚ → ℕ) (pts : List Entry)
    (rp : CollisionPoint) :
    chooseInsertIndex ins pts rp =
      ins (pts.map (fun e => e.cp.pivotB)) (pts.map (fun e => e.cp.distance))
        pts.length rp.pivotB rp.distance := by
  by_cases h : pts.length ≤
      ins (pts.map (fun e => e.cp.pivotB)) (pts.map (fun e => e.cp.distance))
        pts.length rp.pivotB rp.distance
  · simp [chooseInsertIndex, h]
  · simp [chooseInsertIndex, h]

/-- C9: when the first body's AABB inflated by the breaking threshold does
not intersect the second body's AABB, `detect_collision` emits an empty
result, does not invoke `collide` (the result is the same for any collide
routine), and processing that empty result leaves the manifold's contact
points, the fresh-entity counter and the dirty set untouched — the manifold
is not destroyed by this check. -/
theorem C9_broad_check_empty_result
    (aabbA aabbB : Box) (f g : Unit → List CollisionPoint)
    (h : intersect (aabbA.inset (vsmul (-contact_breaking_threshold) vector3_one))
          aabbB = false) :
    detect_collision aabbA aabbB f = [] ∧
    detect_collision aabbA aabbB f = detect_collision aabbA aabbB g ∧
    (∀ ins matA matB mEnt (pts : List Entry) fresh,
      processCollisionSerial ins matA matB mEnt pts fresh
        (detect_collision aabbA aabbB f) = (pts, fresh, [])) := by
  have he : ∀ (f' : Unit → List CollisionPoint),
      detect_collision aabbA aabbB f' = [] := by
    intro f'
    unfold detect_collision
    simp [h]
  refine ⟨he f, by rw [he f, he g], ?_⟩
  intro ins matA matB mEnt pts fresh
  rw [he f]
  rfl

/-- Witness for C9 at concrete non-intersecting boxes, with a collide
routine that would produce a point if it were invoked. -/
theorem C9_witness :
    detect_collision boxUnit boxFar (fun _ => [rpZero]) = [] ∧
    detect_collision boxUnit boxFar (fun _ => [rpZero])
      = detect_collision boxUnit boxFar (fun _ => []) ∧
    (∀ ins matA matB mEnt (pts : List Entry) fresh,
      processCollisionSerial ins matA matB mEnt pts fresh
        (detect_collision boxUnit boxFar (fun _ => [rpZero])) = (pts, fresh, [])) :=
  C9_broad_check_empty_result boxUnit boxFar (fun _ => [rpZero]) (fun _ => [])
    (by decide)

/-- C8: a contact point created for two material-carrying bodies gets
restitution and friction equal to the products of the materials'; the
constraint's stiffness and damping are the series combinations when either
body's stiffness is below the `large_scalar` sentinel and `large_scalar`
otherwise; and a contact constraint is built exactly when both bodies carry
a material. -/
theorem C8_material_constants (mA mB : Material) (matA matB : Option Material)
    (rp : CollisionPoint) (fresh : ℕ) :
    (create_contact_point (some mA) (some mB) fresh rp).cp.restitution
        = mA.restitution * mB.restitution ∧
    (create_contact_point (some mA) (some mB) fresh rp).cp.friction
        = mA.friction * mB.friction ∧
    ((mA.stiffness < large_scalar ∨ mB.stiffness < large_scalar) →
      (create_contact_constraint mA mB).stiffness
          = 1 / (1 / mA.stiffness + 1 / mB.stiffness) ∧
      (create_contact_constraint mA mB).damping
          = 1 / (1 / mA.damping + 1 / mB.damping)) ∧
    (¬(mA.stiffness < large_scalar ∨ mB.stiffness < large_scalar) →
      (create_contact_constraint mA mB).stiffness = large_scalar ∧
      (create_contact_constraint mA mB).damping = large_scalar) ∧
    (constraintBuilt matA matB = true ↔ matA.isSome = true ∧ matB.isSome = true) := by
  refine ⟨by simp [create_contact_point, create_contact_constraint], ?_, ?_, ?_, ?_⟩
  · simp [create_contact_point, create_contact_constraint]
  · intro hcond
    constructor <;> simp [create_contact_constraint, if_pos hcond]
  · intro hcond
    constructor <;> simp [create_contact_constraint, if_neg hcond]
  · simp [constraintBuilt, Bool.and_eq_true]

/-- Witness for C8: a soft material pair gets the series combination, a
rigid pair stays at `large_scalar`. -/
theorem C8_witness :
    ((create_contact_constraint ⟨1, 1, 1, 1⟩ ⟨1, 1, 1, 1⟩).stiffness
        = 1 / (1 / 1 + 1 / 1) ∧
      (create_contact_constraint ⟨1, 1, 1, 1⟩ ⟨1, 1, 1, 1⟩).damping
        = 1 / (1 / 1 + 1 / 1)) ∧
    ((create_contact_constraint ⟨1, 1, large_scalar, large_scalar⟩
          ⟨1, 1, large_scalar, large_scalar⟩).stiffness = large_scalar ∧
      (create_contact_constraint ⟨1, 1, large_scalar, large_scalar⟩
          ⟨1, 1, large_scalar, large_scalar⟩).damping = large_scalar) :=
  ⟨(C8_material_constants ⟨1, 1, 1, 1⟩ ⟨1, 1, 1, 1⟩ none none rpZero 0).2.2.1
      (Or.inl (by decide)),
   (C8_material_constants ⟨1, 1, large_scalar, large_scalar⟩
      ⟨1, 1, large_scalar, large_scalar⟩ none none rpZero 0).2.2.2.1
      (by decide)⟩

/-- C3 fails on the code: for the tracked pair `(1,2)` whose body 2 has no
AABB component, the destroy pass keeps the pair — `b0 && b1 && !intersect`
is false when an AABB is missing — so the pair table still maps the pair to
relation 10 and the relation survives, contradicting the claim that the pair
is removed and the relation destroyed. -/
theorem C3_counterexample :
    tlookup (broadphase_update sC3).table (1, 2) = some 10 ∧
    (10, 1, 2) ∈ (broadphase_update sC3).rels := by decide

/-- C1 fails on the code: in a world with two manifolds where the first
manifold's collision result contains the same point twice, the serial path
creates one contact point (the second incoming point merges onto the point
the first one just created) while the parallel path defers creation and
commits two contact points — the two paths produce different sets of contact
points. -/
theorem C1_counterexample :
    cwC1.manifolds.length = 2 ∧
    ¬ ((((narrowphase_update insert_index_model cwC1).manifolds.getD 0
            default).points.map entryContent).Perm
        (((narrowphase_update_async insert_index_model cwC1).manifolds.getD 0
            default).points.map entryContent)) := by decide

/-- C5 fails on the code: merging an incoming point into an existing contact
point changes its attributes (here `pivotA`) but issues no dirty annotation
at all — the merge branch of `process_collision` never touches the dirty
component. -/
theorem C5_counterexample :
    (((narrowphase_update insert_index_model wC5).manifolds.getD 0
        default).points.getD 0 default).cp.pivotA
      ≠ ((wC5.manifolds.getD 0 default).points.getD 0 default).cp.pivotA ∧
    (narrowphase_update insert_index_model wC5).dirty = [] := by decide

/-! ### Prune: dense characterisation -/

lemma set_dropLast_take (l : List Entry) (i : ℕ) (x : Entry) (hi : i < l.length) :
    ((l.set i x).dropLast).take i = l.take i := by
  rw [List.dropLast_eq_take, List.length_set, List.take_take]
  have hmin : min i (l.length - 1) = i := by omega
  rw [hmin, List.set_eq_take_cons_drop x hi,
    List.take_append_of_le_length (by rw [List.length_take]; omega),
    List.take_take, min_self]

lemma take_succ_getD (l : List Entry) (i : ℕ) (hi : i < l.length) :
    l.take (i + 1) = l.take i ++ [l.getD i default] := by
  rw [List.take_succ]
  congr 1
  rw [List.getD_eq_getElem _ _ hi, List.getElem?_eq_getElem hi]
  rfl

lemma pruneDenseLoop_destroyed (cond : Entry → Bool) :
    ∀ (i : ℕ) (l : List Entry), i ≤ l.length →
      (pruneDenseLoop cond i l).2 = ((l.take i).filter cond).reverse
  | 0, l, _ => by simp [pruneDenseLoop]
  | i + 1, l, h => by
    have hi : i < l.length := by omega
    by_cases hc : cond (l.getD i default)
    · simp only [pruneDenseLoop, if_pos hc]
      have hlen' : ((l.set i (l.getD (l.length - 1) default)).dropLast).length
          = l.length - 1 := by
        rw [List.length_dropLast, List.length_set]
      rw [pruneDenseLoop_destroyed cond i _ (by omega),
        set_dropLast_take l i _ hi, take_succ_getD l i hi, List.filter_append,
        List.filter_cons_of_pos hc, List.filter_nil, List.reverse_append]
      rfl
    · simp only [pruneDenseLoop, if_neg hc]
      rw [pruneDenseLoop_destroyed cond i l (by omega),
        take_succ_getD l i hi, List.filter_append,
        List.filter_cons_of_neg hc, List.filter_nil, List.append_nil]

lemma pruneDenseLoop_perm (cond : Entry → Bool) :
    ∀ (i : ℕ) (l : List Entry), i ≤ l.length →
      ((pruneDenseLoop cond i l).1).Perm
        ((l.take i).filter (fun e => !cond e) ++ l.drop i)
  | 0, l, _ => by simp [pruneDenseLoop]
  | i + 1, l, h => by
    have hi : i < l.length := by omega
    have hdrop : l.drop i = l.getD i default :: l.drop (i + 1) := by
      rw [List.getD_eq_getElem _ _ hi]
      exact List.drop_eq_getElem_cons hi
    have hfilt_pos : cond (l.getD i default) = true →
        (l.take (i + 1)).filter (fun e => !cond e) = (l.take i).filter (fun e => !cond e) := by
      intro hc
      rw [take_succ_getD l i hi, List.filter_append,
        List.filter_cons_of_neg (by simpa using hc), List.filter_nil, List.append_nil]
    have hfilt_neg : cond (l.getD i default) = false →
        (l.take (i + 1)).filter (fun e => !cond e)
          = (l.take i).filter (fun e => !cond e) ++ [l.getD i default] := by
      intro hc
      rw [take_succ_getD l i hi, List.filter_append,
        List.filter_cons_of_pos (by simpa using hc), List.filter_nil]
    by_cases hc : cond (l.getD i default)
    · simp only [pruneDenseLoop, if_pos hc]
      have hlen' : ((l.set i (l.getD (l.length - 1) default)).dropLast).length
          = l.length - 1 := by
        rw [List.length_dropLast, List.length_set]
      have IH := pruneDenseLoop_perm cond i
        ((l.set i (l.getD (l.length - 1) default)).dropLast) (by omega)
      rw [set_dropLast_take l i _ hi] at IH
      rw [hfilt_pos hc]
      rcases eq_or_lt_of_le h with heq | hlt
      · -- removing the last occupied slot
        have hl' : (l.set i (l.getD (l.length - 1) default)).dropLast
            = l.take i := by
          rw [List.set_eq_take_cons_drop _ hi,
            List.drop_eq_nil_of_le (by omega : l.length ≤ i + 1)]
          exact List.dropLast_concat
        have hld : ((l.set i (l.getD (l.length - 1) default)).dropLast).drop i
            = [] := by
          rw [hl']
          exact List.drop_eq_nil_of_le (by rw [List.length_take]; omega)
        rw [hld] at IH
        rw [List.drop_eq_nil_of_le (by omega : l.length ≤ i + 1)]
        exact IH
      · -- the last occupied slot is beyond the removed one
        have hne : l.drop (i + 1) ≠ [] := by
          apply List.ne_nil_of_length_pos
          rw [List.length_drop]
          omega
        have hl' : (l.set i (l.getD (l.length - 1) default)).dropLast
            = l.take i ++ l.getD (l.length - 1) default :: (l.drop (i + 1)).dropLast := by
          rw [List.set_eq_take_cons_drop _ hi, List.dropLast_append_cons,
            List.dropLast_cons_of_ne_nil hne]
        have hys : (l.drop (i + 1)).dropLast ++ [l.getD (l.length - 1) default]
            = l.drop (i + 1) := by
          have hgl := List.dropLast_append_getLast hne
          have h1 : (l.drop (i + 1)).getLast hne
              = l.getD (l.length - 1) default := by
            rw [List.getLast_eq_getElem, List.getElem_drop l,
              List.getD_eq_getElem _ _ (by omega : l.length - 1 < l.length)]
            congr 1
            rw [List.length_drop]
            omega
          rw [h1] at hgl
          exact hgl
        have hld : ((l.set i (l.getD (l.length - 1) default)).dropLast).drop i
            = l.getD (l.length - 1) default :: (l.drop (i + 1)).dropLast := by
          rw [hl']
          exact List.drop_left' (by rw [List.length_take]; omega)
        rw [hld] at IH
        refine IH.trans ?_
        refine List.Perm.append_left _ ?_
        refine ((List.perm_append_singleton _ _).symm).trans ?_
        rw [hys]
    · simp only [pruneDenseLoop, if_neg hc]
      refine (pruneDenseLoop_perm cond i l (by omega)).trans ?_
      rw [hfilt_neg (by simpa using hc), hdrop, List.append_assoc]
      rfl

lemma pruneDense_perm (cond : Entry → Bool) (l : List Entry) :
    ((pruneDense cond l).1).Perm (l.filter (fun e => !cond e)) := by
  have := pruneDenseLoop_perm cond l.length l (le_refl _)
  rw [List.take_length, List.drop_eq_nil_of_le (le_refl _)] at this
  simpa using this

lemma pruneDense_destroyed (cond : Entry → Bool) (l : List Entry) :
    (pruneDense cond l).2 = (l.filter cond).reverse := by
  have := pruneDenseLoop_destroyed cond l.length l (le_refl _)
  rw [List.take_length] at this
  exact this

lemma pruneDense_length_le (cond : Entry → Bool) (l : List Entry) :
    (pruneDense cond l).1.length ≤ l.length := by
  rw [(pruneDense_perm cond l).length_eq]
  exact List.length_filter_le _ _

/-! ### Prune on the slot array -/

lemma numPoints_shape (d : List Entry) (r : ℕ) :
    numPoints (d.map some ++ List.replicate r none) = d.length := by
  induction d with
  | nil =>
    cases r with
    | zero => rfl
    | succ n => rfl
  | cons a t ih =>
    simp only [numPoints, List.map_cons, List.cons_append,
      List.takeWhile_cons_of_pos (by rfl : Option.isSome (some a) = true),
      List.length_cons] at ih ⊢
    omega

lemma map_some_set_last : ∀ (m : List Entry), m ≠ [] →
    (m.map some).set (m.length - 1) none = m.dropLast.map some ++ [none]
  | [], hm => absurd rfl hm
  | [_], _ => rfl
  | a :: b :: t, _ => congrArg (some a :: ·) (map_some_set_last (b :: t) (by simp))

lemma pruneLoop_slots (cond : Entry → Bool) :
    ∀ (i : ℕ) (d : List Entry) (r : ℕ), i ≤ d.length →
      pruneLoop cond i (d.map some ++ List.replicate r none)
        = ((pruneDenseLoop cond i d).1.map some
            ++ List.replicate (r + (pruneDenseLoop cond i d).2.length) none,
           (pruneDenseLoop cond i d).2)
  | 0, d, r, _ => by simp [pruneLoop, pruneDenseLoop]
  | i + 1, d, r, h => by
    have hi : i < d.length := by omega
    have hget : (d.map some ++ List.replicate r none).getD i none
        = some (d.getD i default) := by
      rw [List.getD_append _ _ _ _ (by simpa using hi),
        List.getD_eq_getElem _ _ (by simpa using hi), List.getElem_map,
        List.getD_eq_getElem _ _ hi]
    simp only [pruneLoop, hget]
    have hnum : numPoints (d.map some ++ List.replicate r none) = d.length :=
      numPoints_shape d r
    by_cases hc : cond (d.getD i default)
    · simp only [if_pos hc, pruneDenseLoop, hnum]
      have hlast : (d.map some ++ List.replicate r none).getD (d.length - 1) none
          = some (d.getD (d.length - 1) default) := by
        rw [List.getD_append _ _ _ _ (by simp [List.length_map]; omega),
          List.getD_eq_getElem _ _ (by simp [List.length_map]; omega),
          List.getElem_map, List.getD_eq_getElem _ _ (by omega)]
      rw [hlast]
      set x := d.getD (d.length - 1) default with hxdef
      have hne : d.set i x ≠ [] := by
        intro hcontra
        have h2 := congrArg List.length hcontra
        rw [List.length_set] at h2
        simp only [List.length_nil] at h2
        omega
      have hsurg : ((d.map some ++ List.replicate r none).set i (some x)).set
            (d.length - 1) none
          = ((d.set i x).dropLast).map some ++ List.replicate (r + 1) none := by
        rw [List.set_append_left _ _ (by simpa using hi), ← List.map_set,
          List.set_append_left _ _ (by simp [List.length_set]; omega),
          show d.length - 1 = (d.set i x).length - 1 from by rw [List.length_set],
          map_some_set_last _ hne, List.append_assoc]
        congr 1
      rw [hsurg]
      have IH := pruneLoop_slots cond i ((d.set i x).dropLast) (r + 1)
        (by rw [List.length_dropLast, List.length_set]; omega)
      rw [IH]
      simp only [List.length_cons]
      have harith : r + 1 + (pruneDenseLoop cond i ((d.set i x).dropLast)).2.length
          = r + ((pruneDenseLoop cond i ((d.set i x).dropLast)).2.length + 1) := by
        omega
      rw [harith]
    · simp only [if_neg hc, pruneDenseLoop]
      exact pruneLoop_slots cond i d r (by omega)

/-- C7: on a well-formed slot array — a dense run of distinct contact points
followed by sentinel slots, `max_contacts` slots in total — `prune` removes a
point exactly when its normal separation `dn` exceeds
`contact_breaking_threshold` or its squared tangential drift exceeds
`contact_breaking_threshold²` (the destroyed entries are exactly the points
meeting the separating condition, handed over in reverse iteration order);
removal swaps the vacated slot with the last occupied slot and nulls the last
slot, so that afterwards the slots `[0, num_points)` hold distinct surviving
points — a permutation of the points that do not meet the condition — the
slots `[num_points, max_contacts)` are sentinel, and
`0 ≤ num_points ≤ max_contacts`. -/
theorem C7_prune_invariant (posA : V3) (ornA : Quat) (posB : V3) (ornB : Quat)
    (d : List Entry) (r : ℕ)
    (hcap : d.length + r = max_contacts)
    (hnodup : (d.map (fun e => e.id)).Nodup) :
    (pruneSlots (fun e => breakCond posA ornA posB ornB e.cp)
        (d.map some ++ List.replicate r none)).2
      = (d.filter (fun e => breakCond posA ornA posB ornB e.cp)).reverse ∧
    ∃ d' : List Entry,
      (pruneSlots (fun e => breakCond posA ornA posB ornB e.cp)
          (d.map some ++ List.replicate r none)).1
        = d'.map some ++ List.replicate (max_contacts - d'.length) none ∧
      d'.Perm (d.filter (fun e => !(breakCond posA ornA posB ornB e.cp))) ∧
      (d'.map (fun e => e.id)).Nodup ∧
      numPoints (d'.map some ++ List.replicate (max_contacts - d'.length) none)
        = d'.length ∧
      d'.length ≤ max_contacts := by
  set cond := fun (e : Entry) => breakCond posA ornA posB ornB e.cp with hcond
  have hslots : pruneSlots cond (d.map some ++ List.replicate r none)
      = ((pruneDenseLoop cond d.length d).1.map some
          ++ List.replicate (r + (pruneDenseLoop cond d.length d).2.length) none,
         (pruneDenseLoop cond d.length d).2) := by
    rw [pruneSlots, numPoints_shape]
    exact pruneLoop_slots cond d.length d r (le_refl _)
  have hdense1 : (pruneDenseLoop cond d.length d).1 = (pruneDense cond d).1 := rfl
  have hdense2 : (pruneDenseLoop cond d.length d).2 = (pruneDense cond d).2 := rfl
  have hperm := pruneDense_perm cond d
  have hdes := pruneDense_destroyed cond d
  have hlen1 : (pruneDense cond d).1.length = (d.filter (fun e => !cond e)).length :=
    hperm.length_eq
  have hlen2 : (pruneDense cond d).2.length = (d.filter cond).length := by
    rw [hdes, List.length_reverse]
  have hsum : (d.filter cond).length + (d.filter (fun e => !cond e)).length
      = d.length := (List.length_eq_length_filter_add cond).symm
  constructor
  · rw [hslots]
    simp only [hdense2]
    exact hdes
  · refine ⟨(pruneDense cond d).1, ?_, hperm, ?_, ?_, ?_⟩
    · rw [hslots]
      simp only [hdense1, hdense2]
      congr 2
      rw [hlen1, hlen2]
      omega
    · have hsub : ((d.filter (fun e => !cond e)).map (fun e => e.id)).Sublist
          (d.map (fun e => e.id)) := (List.filter_sublist d).map _
      exact ((hperm.map (fun e => e.id)).nodup_iff).mpr (hnodup.sublist hsub)
    · exact numPoints_shape _ _
    · rw [hlen1]
      omega

/-- Witness for C7: a two-point manifold in a four-slot array where one
point keeps contact and the other has drifted tangentially. -/
theorem C7_witness :
    (pruneSlots (fun e => breakCond v3zero quat_identity v3zero quat_identity e.cp)
        ([eC5, eBreakC7].map some ++ List.replicate 2 none)).2
      = ([eC5, eBreakC7].filter
          (fun e => breakCond v3zero quat_identity v3zero quat_identity e.cp)).reverse ∧
    ∃ d' : List Entry,
      (pruneSlots (fun e => breakCond v3zero quat_identity v3zero quat_identity e.cp)
          ([eC5, eBreakC7].map some ++ List.replicate 2 none)).1
        = d'.map some ++ List.replicate (max_contacts - d'.length) none ∧
      d'.Perm ([eC5, eBreakC7].filter
          (fun e => !(breakCond v3zero quat_identity v3zero quat_identity e.cp))) ∧
      (d'.map (fun e => e.id)).Nodup ∧
      numPoints (d'.map some ++ List.replicate (max_contacts - d'.length) none)
        = d'.length ∧
      d'.length ≤ max_contacts :=
  C7_prune_invariant v3zero quat_identity v3zero quat_identity
    [eC5, eBreakC7] 2 (by decide) (by decide)

/-! ### Serial vs. parallel narrowphase -/

lemma content_create (matA matB : Option Material) (a b : ℕ) (rp : CollisionPoint) :
    entryContent (create_contact_point matA matB a rp)
      = entryContent (create_contact_point matA matB b rp) := by
  cases matA <;> cases matB <;> rfl

lemma cond_create (m : MSlot) (idv : ℕ) (rp : CollisionPoint) :
    m.cond (create_contact_point m.matA m.matB idv rp) = rpBreaks m rp := by
  cases hA : m.matA <;> cases hB : m.matB <;>
    simp only [MSlot.cond, rpBreaks, create_contact_point, hA, hB] <;> rfl

lemma ucd_result (m : MSlot) : (update_contact_distances m).result = m.result := rfl

lemma processPoint_some (ins : List V3 → List ℚ → ℕ → V3 → ℚ → ℕ)
    (pts : List Entry) (rp p : CollisionPoint)
    (h : (processPoint ins pts rp).2 = some p) :
    (processPoint ins pts rp).1 = pts ∧ p = rp ∧ pts.length < max_contacts := by
  by_cases h1 : find_nearest_contact pts rp < pts.length
  · simp only [processPoint, if_pos h1] at h
    simp at h
  · by_cases h2 : chooseInsertIndex ins pts rp < max_contacts
    · by_cases h3 : chooseInsertIndex ins pts rp = pts.length
      · have hred : processPoint ins pts rp = (pts, some rp) := by
          simp only [processPoint, if_neg h1, if_pos h2, if_pos h3]
        rw [hred] at h
        have h' : some rp = some p := h
        exact ⟨by rw [hred], (Option.some.inj h').symm, by rw [← h3]; exact h2⟩
      · simp only [processPoint, if_neg h1, if_pos h2, if_neg h3] at h
        simp at h
    · simp only [processPoint, if_neg h1, if_neg h2] at h
      simp at h

/-- The two orchestration paths agree per manifold, up to entity ids, when
the collision result has at most one point and that point is not immediately
separating. -/
lemma step_equiv (ins : List V3 → List ℚ → ℕ → V3 → ℚ → ℕ) (m : MSlot)
    (f1 f2 : ℕ)
    (hlen : m.result.length ≤ 1)
    (hnb : ∀ rp ∈ m.result, rpBreaks m rp = false) :
    ((serialStep ins f1 m).points.map entryContent).Perm
      (((commitCreate m.matA m.matB m.entity (asyncParallelBody ins m).1.points f2
          (asyncParallelBody ins m).2.1).1).map entryContent) := by
  rcases hres : m.result with _ | ⟨rp, rest⟩
  · simp only [serialStep, asyncParallelBody, commitCreate,
      processCollisionSerial, processCollisionAsync, hres]
    exact List.Perm.refl _
  · have hrest : rest = [] := by
      rw [hres] at hlen
      simp only [List.length_cons] at hlen
      exact List.eq_nil_of_length_eq_zero (by omega)
    subst hrest
    rcases hpp : processPoint ins m.points rp with ⟨pts', opt⟩
    rcases opt with _ | p
    · -- merge, replacement or discard: the two paths coincide exactly
      simp only [serialStep, asyncParallelBody, commitCreate,
        processCollisionSerial, processCollisionAsync, hres, hpp]
      exact List.Perm.refl _
    · -- a genuinely new point: created inline serially, deferred in parallel
      obtain ⟨hpts', hprp, hlt⟩ :=
        processPoint_some ins m.points rp p (by rw [hpp])
      rw [hpp] at hpts'
      simp only at hpts'
      subst hpts'
      rw [hprp] at hpp
      have hcond : m.cond (create_contact_point m.matA m.matB f1 rp) = false := by
        rw [cond_create]
        exact hnb rp (by rw [hres]; exact List.mem_singleton_self rp)
      have hser : (serialStep ins f1 m).points
          = (pruneDense m.cond
              (m.points ++ [create_contact_point m.matA m.matB f1 rp])).1 := by
        simp only [serialStep, hres, processCollisionSerial, hpp,
          if_neg (by omega : ¬ max_contacts ≤ m.points.length)]
      have hasy1 : (asyncParallelBody ins m).1.points
          = (pruneDense m.cond m.points).1 := by
        simp only [asyncParallelBody, hres, processCollisionAsync, hpp]
      have hasy2 : (asyncParallelBody ins m).2.1 = [rp] := by
        simp only [asyncParallelBody, hres, processCollisionAsync, hpp]
      have hslen : (pruneDense m.cond m.points).1.length < max_contacts :=
        lt_of_le_of_lt (pruneDense_length_le _ _) hlt
      have hcom : (commitCreate m.matA m.matB m.entity
            (asyncParallelBody ins m).1.points f2 (asyncParallelBody ins m).2.1).1
          = (pruneDense m.cond m.points).1
              ++ [create_contact_point m.matA m.matB f2 rp] := by
        rw [hasy1, hasy2]
        simp only [commitCreate, if_neg (by omega : ¬ max_contacts ≤
          (pruneDense m.cond m.points).1.length)]
      rw [hser, hcom]
      have hA := (pruneDense_perm m.cond
        (m.points ++ [create_contact_point m.matA m.matB f1 rp])).map entryContent
      have hfa : (m.points ++ [create_contact_point m.matA m.matB f1 rp]).filter
            (fun e => !m.cond e)
          = m.points.filter (fun e => !m.cond e)
              ++ [create_contact_point m.matA m.matB f1 rp] := by
        rw [List.filter_append, List.filter_cons_of_pos (by simp [hcond]),
          List.filter_nil]
      rw [hfa, List.map_append] at hA
      have hB := (pruneDense_perm m.cond m.points).map entryContent
      rw [List.map_append]
      refine hA.trans ?_
      refine List.Perm.append hB.symm ?_
      simp only [List.map_cons, List.map_nil]
      rw [content_create m.matA m.matB f1 f2 rp]

lemma commitDestroyLoop_fst : ∀ (l : List (MSlot × List ℕ)),
    (commitDestroyLoop l).1 = l.map Prod.fst
  | [] => rfl
  | (m, des) :: rest => by
    simp only [commitDestroyLoop, List.map_cons]
    rw [commitDestroyLoop_fst rest]

lemma loops_equiv (ins : List V3 → List ℚ → ℕ → V3 → ℚ → ℕ) :
    ∀ (ms : List MSlot) (f1 f2 : ℕ),
    (∀ m ∈ ms, m.result.length ≤ 1) →
    (∀ m ∈ ms, ∀ rp ∈ m.result, rpBreaks m rp = false) →
    List.Forall₂ (fun a b => a.entity = b.entity ∧
        ((a.points.map entryContent).Perm (b.points.map entryContent)))
      (serialLoop ins f1 ms).1
      ((commitCreateLoop f2 (ms.map (asyncParallelBody ins))).1.map Prod.fst)
  | [], _, _, _, _ => List.Forall₂.nil
  | m :: ms, f1, f2, hlen, hnb => by
    simp only [serialLoop, List.map_cons, commitCreateLoop]
    refine List.Forall₂.cons ⟨rfl, ?_⟩ ?_
    · have hmats : (asyncParallelBody ins m).1.matA = m.matA
          ∧ (asyncParallelBody ins m).1.matB = m.matB
          ∧ (asyncParallelBody ins m).1.entity = m.entity := ⟨rfl, rfl, rfl⟩
      exact step_equiv ins m f1 f2 (hlen m (List.mem_cons_self m ms))
        (hnb m (List.mem_cons_self m ms))
    · exact loops_equiv ins ms (serialStep ins f1 m).fresh _
        (fun m' hm' => hlen m' (List.mem_cons_of_mem m hm'))
        (fun m' hm' => hnb m' (List.mem_cons_of_mem m hm'))

/-- C1 as amended: for a world with more than one manifold in which every
manifold's collision result contains at most one point and no incoming point
is immediately separating at the current poses, the parallel path
(`update_async` followed by `finish_async_update` after completion) produces
for each manifold the same multiset of contact-point contents — pivots,
normals, distances, lifetimes, frictions, restitutions, warm-start impulses;
entity ids may differ — as the serial path (`update`), and both paths leave
the broadphase pair table untouched. -/
theorem C1_parallel_equivalence_amended
    (ins : List V3 → List ℚ → ℕ → V3 → ℚ → ℕ) (w : World)
    (_hN : 1 < w.manifolds.length)
    (hlen : ∀ m ∈ w.manifolds, m.result.length ≤ 1)
    (hnb : ∀ m ∈ w.manifolds, ∀ rp ∈ m.result, rpBreaks m rp = false) :
    List.Forall₂ (fun a b => a.entity = b.entity ∧
        ((a.points.map entryContent).Perm (b.points.map entryContent)))
      (narrowphase_update ins w).manifolds
      (narrowphase_update_async ins w).manifolds ∧
    (narrowphase_update ins w).table = w.table ∧
    (narrowphase_update_async ins w).table = w.table := by
  refine ⟨?_, rfl, rfl⟩
  have hasync : (narrowphase_update_async ins w).manifolds
      = (commitCreateLoop w.nextId
          ((w.manifolds.map update_contact_distances).map
            (asyncParallelBody ins))).1.map Prod.fst := by
    simp only [narrowphase_update_async]
    rw [commitDestroyLoop_fst]
  rw [hasync]
  exact loops_equiv ins (w.manifolds.map update_contact_distances) w.nextId w.nextId
    (by
      intro m' hm'
      obtain ⟨m, hm, rfl⟩ := List.mem_map.mp hm'
      rw [ucd_result]
      exact hlen m hm)
    (by
      intro m' hm'
      obtain ⟨m, hm, rfl⟩ := List.mem_map.mp hm'
      rw [ucd_result]
      intro rp hrp
      exact hnb m hm rp hrp)

/-! ### Dirty marks of a serial step -/

lemma pcs_dirty (ins : List V3 → List ℚ → ℕ → V3 → ℚ → ℕ)
    (matA matB : Option Material) (mEnt : ℕ) :
    ∀ (rps : List CollisionPoint) (pts : List Entry) (fresh : ℕ),
    (processCollisionSerial ins matA matB mEnt pts fresh rps).2.2
      = ((List.range
            ((processCollisionSerial ins matA matB mEnt pts fresh rps).2.1 - fresh)).map
          (fun j => createMarks (fresh + j) mEnt)).flatten ∧
    fresh ≤ (processCollisionSerial ins matA matB mEnt pts fresh rps).2.1
  | [], pts, fresh => by simp [processCollisionSerial]
  | rp :: rps, pts, fresh => by
    rcases hpp : processPoint ins pts rp with ⟨pts', opt⟩
    rcases opt with _ | p
    · simp only [processCollisionSerial, hpp]
      exact pcs_dirty ins matA matB mEnt rps pts' fresh
    · by_cases hcap : max_contacts ≤ pts'.length
      · simp only [processCollisionSerial, hpp, if_pos hcap]
        exact pcs_dirty ins matA matB mEnt rps pts' fresh
      · simp only [processCollisionSerial, hpp, if_neg hcap]
        obtain ⟨ih1, ih2⟩ := pcs_dirty ins matA matB mEnt rps
          (pts' ++ [create_contact_point matA matB fresh p]) (fresh + 1)
        constructor
        · rw [ih1]
          have hn : (processCollisionSerial ins matA matB mEnt
              (pts' ++ [create_contact_point matA matB fresh p]) (fresh + 1) rps).2.1
                - fresh
              = ((processCollisionSerial ins matA matB mEnt
                  (pts' ++ [create_contact_point matA matB fresh p])
                  (fresh + 1) rps).2.1 - (fresh + 1)) + 1 := by
            omega
          rw [hn, List.range_succ_eq_map, List.map_cons, List.flatten_cons,
            Nat.add_zero, List.map_map]
          congr 1
          congr 1
          apply List.map_congr_left
          intro j _
          simp only [Function.comp]
          congr 1
          omega
        · omega

/-- C5 as amended: the dirty annotations of a serial narrowphase step are
exactly the creation marks of the contact points it creates (each created
entity marked new and created, the manifold marked updated) followed by the
destruction marks of the points it prunes (the manifold marked updated for
`contact_manifold` and `island_node_parent`); in-place merges and
replacements of contact points issue no dirty annotation. -/
theorem C5_dirty_marks_amended (ins : List V3 → List ℚ → ℕ → V3 → ℚ → ℕ)
    (fresh : ℕ) (m : MSlot) :
    (serialStep ins fresh m).dirty
      = ((List.range ((serialStep ins fresh m).fresh - fresh)).map
          (fun j => createMarks (fresh + j) m.entity)).flatten
        ++ ((serialStep ins fresh m).destroyedIds.map
            (fun _ => destroyMarks m.entity)).flatten := by
  obtain ⟨h1, _⟩ := pcs_dirty ins m.matA m.matB m.entity m.result m.points fresh
  simp only [serialStep, List.map_map]
  rw [h1]
  rfl

/-- Witness for the amended C1 at a two-manifold world with empty collision
results and a nonempty pair table. -/
theorem C1_amended_witness :
    List.Forall₂ (fun a b => a.entity = b.entity ∧
        ((a.points.map entryContent).Perm (b.points.map entryContent)))
      (narrowphase_update insert_index_model wPar).manifolds
      (narrowphase_update_async insert_index_model wPar).manifolds ∧
    (narrowphase_update insert_index_model wPar).table = wPar.table ∧
    (narrowphase_update_async insert_index_model wPar).table = wPar.table :=
  C1_parallel_equivalence_amended insert_index_model wPar (by decide)
    (by decide) (by decide)

/-! ### Pair-table lemmas -/

lemma tlookup_cons (kv : (ℕ × ℕ) × ℕ) (t : Table) (q : ℕ × ℕ) :
    tlookup (kv :: t) q = if kv.1 = q then some kv.2 else tlookup t q := by
  by_cases h : kv.1 = q <;> simp [tlookup, List.find?_cons, h]

lemma terase_cons (kv : (ℕ × ℕ) × ℕ) (t : Table) (p : ℕ × ℕ) :
    terase (kv :: t) p = if kv.1 = p then terase t p else kv :: terase t p := by
  by_cases h : kv.1 = p <;> simp [terase, List.filter_cons, h]

lemma tlookup_terase : ∀ (t : Table) (p q : ℕ × ℕ),
    tlookup (terase t p) q = if q = p then none else tlookup t q
  | [], p, q => by
    by_cases h : q = p <;> simp [terase, tlookup, h]
  | kv :: t, p, q => by
    rw [terase_cons]
    by_cases hkp : kv.1 = p
    · rw [if_pos hkp, tlookup_terase t p q]
      by_cases hqp : q = p
      · rw [if_pos hqp, if_pos hqp]
      · rw [if_neg hqp, if_neg hqp, tlookup_cons,
          if_neg (by rw [hkp]; exact fun hc => hqp hc.symm)]
    · rw [if_neg hkp, tlookup_cons, tlookup_cons]
      by_cases hkq : kv.1 = q
      · rw [if_pos hkq, if_pos hkq, if_neg (by rw [← hkq]; exact hkp)]
      · rw [if_neg hkq, if_neg hkq, tlookup_terase t p q]

lemma tlookup_tinsert (t : Table) (p q : ℕ × ℕ) (v : ℕ) :
    tlookup (tinsert t p v) q = if q = p then some v else tlookup t q := by
  rw [tinsert, tlookup_cons, tlookup_terase]
  by_cases h : q = p
  · rw [if_pos (h.symm), if_pos h]
  · rw [if_neg (fun hc => h hc.symm), if_neg h, if_neg h]

/-! ### Destroy-pass lemmas -/

lemma destroyPass_pres (ag : ℕ → Option Box) (ent e0 e1 : ℕ) :
    ∀ (L : List (ℕ × ℕ × ℕ)) (t : Table),
    (∀ r ∈ L, r.1 ≠ ent) →
    tlookup t (e0, e1) = some ent → tlookup t (e1, e0) = some ent →
    tlookup (destroyPass ag L t).1 (e0, e1) = some ent ∧
    tlookup (destroyPass ag L t).1 (e1, e0) = some ent ∧
    ent ∉ (destroyPass ag L t).2
  | [], t, _, h1, h2 => ⟨h1, h2, List.not_mem_nil ent⟩
  | (ent', a, b) :: L, t, hne, h1, h2 => by
    have hne' : ent' ≠ ent := hne (ent', a, b) (List.mem_cons_self _ _)
    have hrest := fun r hr => hne r (List.mem_cons_of_mem _ hr)
    by_cases hg : tlookup t (a, b) = some ent'
    · rcases hA : ag a with _ | b0
      · simp only [destroyPass, if_pos hg, hA]
        exact destroyPass_pres ag ent e0 e1 L t hrest h1 h2
      · rcases hB : ag b with _ | b1
        · simp only [destroyPass, if_pos hg, hA, hB]
          exact destroyPass_pres ag ent e0 e1 L t hrest h1 h2
        · by_cases hint : intersect (b0.inset sepOffset) (b1.inset sepOffset)
          · simp only [destroyPass, if_pos hg, hA, hB, if_pos hint]
            exact destroyPass_pres ag ent e0 e1 L t hrest h1 h2
          · have hab1 : (a, b) ≠ ((e0, e1) : ℕ × ℕ) := by
              intro hc
              rw [hc, h1] at hg
              exact hne' (Option.some.inj hg).symm
            have hab2 : (a, b) ≠ ((e1, e0) : ℕ × ℕ) := by
              intro hc
              rw [hc, h2] at hg
              exact hne' (Option.some.inj hg).symm
            have hba1 : ((e0, e1) : ℕ × ℕ) ≠ (b, a) := by
              intro hc
              apply hab2
              have h01 : e0 = b := congrArg Prod.fst hc
              have h02 : e1 = a := congrArg Prod.snd hc
              rw [h01, h02]
            have hba2 : ((e1, e0) : ℕ × ℕ) ≠ (b, a) := by
              intro hc
              apply hab1
              have h01 : e1 = b := congrArg Prod.fst hc
              have h02 : e0 = a := congrArg Prod.snd hc
              rw [h01, h02]
            simp only [destroyPass, if_pos hg, hA, hB, if_neg hint]
            have h1' : tlookup (terase (terase t (a, b)) (b, a)) (e0, e1)
                = some ent := by
              rw [tlookup_terase, if_neg hba1, tlookup_terase,
                if_neg (fun hc => hab1 hc.symm)]
              exact h1
            have h2' : tlookup (terase (terase t (a, b)) (b, a)) (e1, e0)
                = some ent := by
              rw [tlookup_terase, if_neg hba2, tlookup_terase,
                if_neg (fun hc => hab2 hc.symm)]
              exact h2
            obtain ⟨k1, k2, k3⟩ :=
              destroyPass_pres ag ent e0 e1 L _ hrest h1' h2'
            refine ⟨k1, k2, ?_⟩
            intro hc
            rcases List.mem_cons.mp hc with hc1 | hc2
            · exact hne' hc1.symm
            · exact k3 hc2
    · simp only [destroyPass, if_neg hg]
      exact destroyPass_pres ag ent e0 e1 L t hrest h1 h2

lemma destroyPass_none (ag : ℕ → Option Box) (k : ℕ × ℕ) :
    ∀ (L : List (ℕ × ℕ × ℕ)) (t : Table),
    tlookup t k = none → tlookup (destroyPass ag L t).1 k = none
  | [], _, h => h
  | (ent', a, b) :: L, t, h => by
    by_cases hg : tlookup t (a, b) = some ent'
    · rcases hA : ag a with _ | b0
      · simp only [destroyPass, if_pos hg, hA]
        exact destroyPass_none ag k L t h
      · rcases hB : ag b with _ | b1
        · simp only [destroyPass, if_pos hg, hA, hB]
          exact destroyPass_none ag k L t h
        · by_cases hint : intersect (b0.inset sepOffset) (b1.inset sepOffset)
          · simp only [destroyPass, if_pos hg, hA, hB, if_pos hint]
            exact destroyPass_none ag k L t h
          · simp only [destroyPass, if_pos hg, hA, hB, if_neg hint]
            refine destroyPass_none ag k L _ ?_
            rw [tlookup_terase, tlookup_terase]
            split_ifs <;> first | rfl | exact h
    · simp only [destroyPass, if_neg hg]
      exact destroyPass_none ag k L t h

lemma destroyPass_append (ag : ℕ → Option Box) :
    ∀ (L1 L2 : List (ℕ × ℕ × ℕ)) (t : Table),
    destroyPass ag (L1 ++ L2) t
      = ((destroyPass ag L2 (destroyPass ag L1 t).1).1,
         (destroyPass ag L1 t).2 ++ (destroyPass ag L2 (destroyPass ag L1 t).1).2)
  | [], L2, t => by simp [destroyPass]
  | (ent', a, b) :: L1, L2, t => by
    by_cases hg : tlookup t (a, b) = some ent'
    · rcases hA : ag a with _ | b0
      · simp only [List.cons_append, destroyPass, if_pos hg, hA]
        exact destroyPass_append ag L1 L2 t
      · rcases hB : ag b with _ | b1
        · simp only [List.cons_append, destroyPass, if_pos hg, hA, hB]
          exact destroyPass_append ag L1 L2 t
        · by_cases hint : intersect (b0.inset sepOffset) (b1.inset sepOffset)
          · simp only [List.cons_append, destroyPass, if_pos hg, hA, hB,
              if_pos hint]
            exact destroyPass_append ag L1 L2 t
          · simp only [List.cons_append, destroyPass, if_pos hg, hA, hB,
              if_neg hint]
            simp only [List.append_eq]
            rw [destroyPass_append ag L1 L2 (terase (terase t (a, b)) (b, a))]
    · simp only [List.cons_append, destroyPass, if_neg hg]
      exact destroyPass_append ag L1 L2 t

/-! ### Create-pass lemmas -/

lemma createPass_append :
    ∀ (P1 P2 : List ((ℕ × Box) × (ℕ × Box))) (t : Table)
      (acc : List (ℕ × ℕ × ℕ)) (n : ℕ),
    createPass (P1 ++ P2) t acc n
      = createPass P2 (createPass P1 t acc n).1 (createPass P1 t acc n).2.1
          (createPass P1 t acc n).2.2
  | [], _, _, _, _ => rfl
  | ((a, ba), (b, bb)) :: P1, P2, t, acc, n => by
    by_cases hint : intersect (ba.inset createOffset) (bb.inset createOffset)
    · by_cases hpres : (tlookup t (a, b)).isSome
      · simp only [List.cons_append, createPass, if_pos hint, hpres, if_true]
        exact createPass_append P1 P2 t acc n
      · simp only [List.cons_append, createPass, if_pos hint,
          if_neg hpres]
        exact createPass_append P1 P2 _ _ _
    · simp only [List.cons_append, createPass, if_neg hint]
      exact createPass_append P1 P2 t acc n

lemma createPass_acc_sub :
    ∀ (ps : List ((ℕ × Box) × (ℕ × Box))) (t : Table)
      (acc : List (ℕ × ℕ × ℕ)) (n : ℕ) (rr : ℕ × ℕ × ℕ),
    rr ∈ acc → rr ∈ (createPass ps t acc n).2.1
  | [], _, _, _, _, h => h
  | ((a, ba), (b, bb)) :: ps, t, acc, n, rr, h => by
    by_cases hint : intersect (ba.inset createOffset) (bb.inset createOffset)
    · by_cases hpres : (tlookup t (a, b)).isSome
      · simp only [createPass, if_pos hint, hpres, if_true]
        exact createPass_acc_sub ps t acc n rr h
      · simp only [createPass, if_pos hint, if_neg hpres]
        exact createPass_acc_sub ps _ _ _ rr (List.mem_append_left _ h)
    · simp only [createPass, if_neg hint]
      exact createPass_acc_sub ps t acc n rr h

lemma createPass_pres_some (e0 e1 v : ℕ) :
    ∀ (ps : List ((ℕ × Box) × (ℕ × Box))) (t : Table)
      (acc : List (ℕ × ℕ × ℕ)) (n : ℕ),
    tlookup t (e0, e1) = some v → tlookup t (e1, e0) = some v →
    tlookup (createPass ps t acc n).1 (e0, e1) = some v ∧
    tlookup (createPass ps t acc n).1 (e1, e0) = some v ∧
    (∀ rr ∈ (createPass ps t acc n).2.1, rr ∈ acc ∨
      ((rr.2.1, rr.2.2) ≠ ((e0, e1) : ℕ × ℕ)
        ∧ (rr.2.1, rr.2.2) ≠ ((e1, e0) : ℕ × ℕ)))
  | [], t, acc, n, h1, h2 => ⟨h1, h2, fun rr hr => Or.inl hr⟩
  | ((a, ba), (b, bb)) :: ps, t, acc, n, h1, h2 => by
    by_cases hint : intersect (ba.inset createOffset) (bb.inset createOffset)
    · by_cases hpres : (tlookup t (a, b)).isSome
      · simp only [createPass, if_pos hint, hpres, if_true]
        exact createPass_pres_some e0 e1 v ps t acc n h1 h2
      · have hab1 : ((a, b) : ℕ × ℕ) ≠ (e0, e1) := by
          intro hc
          rw [hc, h1] at hpres
          exact hpres rfl
        have hab2 : ((a, b) : ℕ × ℕ) ≠ (e1, e0) := by
          intro hc
          rw [hc, h2] at hpres
          exact hpres rfl
        have hba1 : ((e0, e1) : ℕ × ℕ) ≠ (b, a) := by
          intro hc
          apply hab2
          have hx : e0 = b := congrArg Prod.fst hc
          have hy : e1 = a := congrArg Prod.snd hc
          rw [hx, hy]
        have hba2 : ((e1, e0) : ℕ × ℕ) ≠ (b, a) := by
          intro hc
          apply hab1
          have hx : e1 = b := congrArg Prod.fst hc
          have hy : e0 = a := congrArg Prod.snd hc
          rw [hx, hy]
        simp only [createPass, if_pos hint, if_neg hpres]
        have h1' : tlookup (tinsert (tinsert t (a, b) n) (b, a) n) (e0, e1)
            = some v := by
          rw [tlookup_tinsert, if_neg hba1, tlookup_tinsert,
            if_neg (fun hc => hab1 hc.symm)]
          exact h1
        have h2' : tlookup (tinsert (tinsert t (a, b) n) (b, a) n) (e1, e0)
            = some v := by
          rw [tlookup_tinsert, if_neg hba2, tlookup_tinsert,
            if_neg (fun hc => hab2 hc.symm)]
          exact h2
        obtain ⟨k1, k2, k3⟩ := createPass_pres_some e0 e1 v ps _
          (acc ++ [(n, a, b)]) (n + 1) h1' h2'
        refine ⟨k1, k2, ?_⟩
        intro rr hr
        rcases k3 rr hr with hacc | hok
        · rcases List.mem_append.mp hacc with hacc' | hone
          · exact Or.inl hacc'
          · right
            have hrr : rr = (n, a, b) := List.mem_singleton.mp hone
            rw [hrr]
            exact ⟨hab1, hab2⟩
        · exact Or.inr hok
    · simp only [createPass, if_neg hint]
      exact createPass_pres_some e0 e1 v ps t acc n h1 h2

lemma createPass_none_pres (e0 e1 : ℕ) :
    ∀ (ps : List ((ℕ × Box) × (ℕ × Box))) (t : Table)
      (acc : List (ℕ × ℕ × ℕ)) (n : ℕ),
    tlookup t (e0, e1) = none → tlookup t (e1, e0) = none →
    (∀ q ∈ ps, ((q.1.1, q.2.1) = ((e0, e1) : ℕ × ℕ)
        ∨ (q.1.1, q.2.1) = ((e1, e0) : ℕ × ℕ)) →
      intersect (q.1.2.inset createOffset) (q.2.2.inset createOffset) = false) →
    tlookup (createPass ps t acc n).1 (e0, e1) = none ∧
    tlookup (createPass ps t acc n).1 (e1, e0) = none
  | [], t, acc, n, h1, h2, _ => ⟨h1, h2⟩
  | ((a, ba), (b, bb)) :: ps, t, acc, n, h1, h2, hhit => by
    have hhit' := fun q hq => hhit q (List.mem_cons_of_mem _ hq)
    by_cases hint : intersect (ba.inset createOffset) (bb.inset createOffset)
    · have hab1 : ((a, b) : ℕ × ℕ) ≠ (e0, e1) := by
        intro hc
        have := hhit ((a, ba), (b, bb)) (List.mem_cons_self _ _) (Or.inl hc)
        rw [hint] at this
        simp at this
      have hab2 : ((a, b) : ℕ × ℕ) ≠ (e1, e0) := by
        intro hc
        have := hhit ((a, ba), (b, bb)) (List.mem_cons_self _ _) (Or.inr hc)
        rw [hint] at this
        simp at this
      have hba1 : ((e0, e1) : ℕ × ℕ) ≠ (b, a) := by
        intro hc
        apply hab2
        have hx : e0 = b := congrArg Prod.fst hc
        have hy : e1 = a := congrArg Prod.snd hc
        rw [hx, hy]
      have hba2 : ((e1, e0) : ℕ × ℕ) ≠ (b, a) := by
        intro hc
        apply hab1
        have hx : e1 = b := congrArg Prod.fst hc
        have hy : e0 = a := congrArg Prod.snd hc
        rw [hx, hy]
      by_cases hpres : (tlookup t (a, b)).isSome
      · simp only [createPass, if_pos hint, hpres, if_true]
        exact createPass_none_pres e0 e1 ps t acc n h1 h2 hhit'
      · simp only [createPass, if_pos hint, if_neg hpres]
        refine createPass_none_pres e0 e1 ps _ _ _ ?_ ?_ hhit'
        · rw [tlookup_tinsert, if_neg hba1, tlookup_tinsert,
            if_neg (fun hc => hab1 hc.symm)]
          exact h1
        · rw [tlookup_tinsert, if_neg hba2, tlookup_tinsert,
            if_neg (fun hc => hab2 hc.symm)]
          exact h2
    · simp only [createPass, if_neg hint]
      exact createPass_none_pres e0 e1 ps t acc n h1 h2 hhit'

lemma createPass_ids :
    ∀ (ps : List ((ℕ × Box) × (ℕ × Box))) (t : Table)
      (acc : List (ℕ × ℕ × ℕ)) (n : ℕ),
    ∀ rr ∈ (createPass ps t acc n).2.1, rr ∈ acc ∨ n ≤ rr.1
  | [], _, _, _, rr, h => Or.inl h
  | ((a, ba), (b, bb)) :: ps, t, acc, n, rr, h => by
    by_cases hint : intersect (ba.inset createOffset) (bb.inset createOffset)
    · by_cases hpres : (tlookup t (a, b)).isSome
      · simp only [createPass, if_pos hint, hpres, if_true] at h
        exact createPass_ids ps t acc n rr h
      · simp only [createPass, if_pos hint, if_neg hpres] at h
        rcases createPass_ids ps _ _ _ rr h with hacc | hge
        · rcases List.mem_append.mp hacc with hacc' | hone
          · exact Or.inl hacc'
          · right
            rw [List.mem_singleton.mp hone]
        · exact Or.inr (by omega)
    · simp only [createPass, if_neg hint] at h
      exact createPass_ids ps t acc n rr h

/-! ### Geometry of the two hysteresis offsets -/

lemma add_x (a b : V3) : (a + b).x = a.x + b.x := rfl

lemma add_y (a b : V3) : (a + b).y = a.y + b.y := rfl

lemma add_z (a b : V3) : (a + b).z = a.z + b.z := rfl

lemma sub_x (a b : V3) : (a - b).x = a.x - b.x := rfl

lemma sub_y (a b : V3) : (a - b).y = a.y - b.y := rfl

lemma sub_z (a b : V3) : (a - b).z = a.z - b.z := rfl

lemma intersect_comm (x y : Box) : intersect x y = intersect y x := by
  rw [Bool.eq_iff_iff]
  simp only [intersect, Bool.and_eq_true, decide_eq_true_eq]
  tauto

lemma intersect_mono (x y : Box) :
    intersect (x.inset createOffset) (y.inset createOffset) = true →
    intersect (x.inset sepOffset) (y.inset sepOffset) = true := by
  have hT : (0 : ℚ) ≤ contact_breaking_threshold := by
    norm_num [contact_breaking_threshold]
  simp only [intersect, Box.inset, createOffset, sepOffset, Bool.and_eq_true,
    decide_eq_true_eq, add_x, add_y, add_z, sub_x, sub_y, sub_z]
  intro h
  obtain ⟨⟨⟨h1, h2⟩, h3, h4⟩, h5, h6⟩ := h
  refine ⟨⟨⟨?_, ?_⟩, ?_, ?_⟩, ?_, ?_⟩ <;> linarith

/-! ### Ordered-pair enumeration -/

lemma orderedPairs_mem_both {α : Type} :
    ∀ (l : List α) (p q : α), (p, q) ∈ orderedPairs l → p ∈ l ∧ q ∈ l
  | [], _, _, h => absurd h (List.not_mem_nil _)
  | x :: xs, p, q, h => by
    rcases List.mem_append.mp h with h1 | h2
    · obtain ⟨y, hy, heq⟩ := List.mem_map.mp h1
      have hx : x = p := congrArg Prod.fst heq
      have hyq : y = q := congrArg Prod.snd heq
      subst hx
      subst hyq
      exact ⟨List.mem_cons_self _ _, List.mem_cons_of_mem _ hy⟩
    · obtain ⟨hp, hq⟩ := orderedPairs_mem_both xs p q h2
      exact ⟨List.mem_cons_of_mem _ hp, List.mem_cons_of_mem _ hq⟩

lemma findbox_eq :
    ∀ (l : List (ℕ × Box)) (e : ℕ) (b : Box),
    (l.map Prod.fst).Nodup → (e, b) ∈ l →
    ((l.find? (fun kv => decide (kv.1 = e))).map (fun kv => kv.2)) = some b
  | [], _, _, _, hmem => absurd hmem (List.not_mem_nil _)
  | kv :: l, e, b, hnd, hmem => by
    rw [List.map_cons, List.nodup_cons] at hnd
    by_cases hk : kv.1 = e
    · rw [List.find?_cons_of_pos _ (by simp [hk])]
      rcases List.mem_cons.mp hmem with heq | hmem'
      · rw [← heq]
        rfl
      · exfalso
        apply hnd.1
        rw [hk]
        exact List.mem_map_of_mem Prod.fst hmem'
    · rw [List.find?_cons_of_neg _ (by simp [hk])]
      rcases List.mem_cons.mp hmem with heq | hmem'
      · exfalso
        apply hk
        rw [← heq]
      · exact findbox_eq l e b hnd.2 hmem'

lemma key_mem_unique (l : List (ℕ × Box)) (hnd : (l.map Prod.fst).Nodup)
    (k : ℕ) (b b' : Box) (h1 : (k, b) ∈ l) (h2 : (k, b') ∈ l) : b = b' := by
  have e1 := findbox_eq l k b hnd h1
  have e2 := findbox_eq l k b' hnd h2
  rw [e1] at e2
  exact Option.some.inj e2

lemma orderedPairs_split (e0 e1 : ℕ) (b0 b1 : Box) :
    ∀ (l : List (ℕ × Box)),
    (l.map Prod.fst).Nodup →
    ((e0, b0), (e1, b1)) ∈ orderedPairs l →
    e0 ≠ e1 ∧
    ∃ P1 P2, orderedPairs l = P1 ++ ((e0, b0), (e1, b1)) :: P2 ∧
      (∀ q ∈ P1, (q.1.1, q.2.1) ≠ ((e0, e1) : ℕ × ℕ)
        ∧ (q.1.1, q.2.1) ≠ ((e1, e0) : ℕ × ℕ)) ∧
      (∀ q ∈ P2, (q.1.1, q.2.1) ≠ ((e0, e1) : ℕ × ℕ)
        ∧ (q.1.1, q.2.1) ≠ ((e1, e0) : ℕ × ℕ))
  | [], _, hmem => absurd hmem (List.not_mem_nil _)
  | x :: xs, hnd, hmem => by
    rw [List.map_cons, List.nodup_cons] at hnd
    have hkeys : x.1 ∉ xs.map Prod.fst := hnd.1
    rcases List.mem_append.mp hmem with h1 | h2
    · -- the pair starts at the head: x = (e0,b0) and (e1,b1) ∈ xs
      obtain ⟨y, hy, heq⟩ := List.mem_map.mp h1
      have hx : x = (e0, b0) := congrArg Prod.fst heq
      have hyq : y = (e1, b1) := congrArg Prod.snd heq
      subst hyq
      have he1mem : e1 ∈ xs.map Prod.fst := List.mem_map_of_mem Prod.fst hy
      have he0key : x.1 = e0 := by rw [hx]
      have hne01 : e0 ≠ e1 := by
        intro hc
        apply hkeys
        rw [he0key, hc]
        exact he1mem
      obtain ⟨A, B, hAB⟩ := List.append_of_mem hy
      have hkeysAB : e1 ∉ A.map Prod.fst ∧ e1 ∉ B.map Prod.fst := by
        have := hnd.2
        rw [hAB, List.map_append, List.map_cons] at this
        rw [List.nodup_append] at this
        obtain ⟨_, hnc, hdisj⟩ := this
        rw [List.nodup_cons] at hnc
        exact ⟨fun hc => hdisj hc (List.mem_cons_self _ _), hnc.1⟩
      refine ⟨hne01, A.map (fun z => (x, z)),
        B.map (fun z => (x, z)) ++ orderedPairs xs, ?_, ?_, ?_⟩
      · show (xs.map (fun y => (x, y))) ++ orderedPairs xs = _
        rw [hAB, List.map_append, List.map_cons, hx]
        rw [List.append_assoc]
        rfl
      · intro q hq
        obtain ⟨z, hz, hzq⟩ := List.mem_map.mp hq
        rw [← hzq]
        have hz1 : z.1 ≠ e1 := by
          intro hc
          apply hkeysAB.1
          rw [← hc]
          exact List.mem_map_of_mem Prod.fst hz
        constructor
        · intro hc
          exact hz1 (congrArg Prod.snd hc)
        · intro hc
          have hxe1 : x.1 = e1 := congrArg Prod.fst hc
          rw [he0key] at hxe1
          exact hne01 hxe1
      · intro q hq
        rcases List.mem_append.mp hq with hqB | hqO
        · obtain ⟨z, hz, hzq⟩ := List.mem_map.mp hqB
          rw [← hzq]
          have hz1 : z.1 ≠ e1 := by
            intro hc
            apply hkeysAB.2
            rw [← hc]
            exact List.mem_map_of_mem Prod.fst hz
          constructor
          · intro hc
            exact hz1 (congrArg Prod.snd hc)
          · intro hc
            have hxe1 : x.1 = e1 := congrArg Prod.fst hc
            rw [he0key] at hxe1
            exact hne01 hxe1
        · obtain ⟨hqa, hqb⟩ := orderedPairs_mem_both xs q.1 q.2 (by
            simpa using hqO)
          have hqa1 : q.1.1 ≠ e0 := by
            intro hc
            apply hkeys
            rw [he0key, ← hc]
            exact List.mem_map_of_mem Prod.fst hqa
          have hqb1 : q.2.1 ≠ e0 := by
            intro hc
            apply hkeys
            rw [he0key, ← hc]
            exact List.mem_map_of_mem Prod.fst hqb
          constructor
          · intro hc
            exact hqa1 (congrArg Prod.fst hc)
          · intro hc
            exact hqb1 (congrArg Prod.snd hc)
    · -- the pair lies within the tail
      obtain ⟨hmem0, hmem1⟩ :=
        orderedPairs_mem_both xs (e0, b0) (e1, b1) h2
      obtain ⟨hne01, P1', P2', hsplit, hP1', hP2'⟩ :=
        orderedPairs_split e0 e1 b0 b1 xs hnd.2 h2
      have hx0 : x.1 ≠ e0 := by
        intro hc
        apply hkeys
        rw [hc]
        exact List.mem_map_of_mem Prod.fst hmem0
      have hx1 : x.1 ≠ e1 := by
        intro hc
        apply hkeys
        rw [hc]
        exact List.mem_map_of_mem Prod.fst hmem1
      refine ⟨hne01, xs.map (fun y => (x, y)) ++ P1', P2', ?_, ?_, hP2'⟩
      · show (xs.map (fun y => (x, y))) ++ orderedPairs xs = _
        rw [hsplit, List.append_assoc]
      · intro q hq
        rcases List.mem_append.mp hq with hqm | hqP
        · obtain ⟨z, _, hzq⟩ := List.mem_map.mp hqm
          rw [← hzq]
          constructor
          · intro hc
            exact hx0 (congrArg Prod.fst hc)
          · intro hc
            exact hx1 (congrArg Prod.fst hc)
        · exact hP1' q hqP

/-! ### The three hysteresis regimes of `broadphase::update` -/

lemma rels_fst_split (R1 R2 : List (ℕ × ℕ × ℕ)) (ent e0 e1 : ℕ)
    (hnd : ((R1 ++ (ent, e0, e1) :: R2).map (fun r => r.1)).Nodup) :
    (∀ r ∈ R1, r.1 ≠ ent) ∧ (∀ r ∈ R2, r.1 ≠ ent) := by
  simp only [List.map_append, List.map_cons] at hnd
  rw [List.nodup_append] at hnd
  obtain ⟨_, hnc, hdisj⟩ := hnd
  rw [List.nodup_cons] at hnc
  constructor
  · intro r hr hc
    refine hdisj (List.mem_map_of_mem _ hr) ?_
    rw [hc]
    exact List.mem_cons_self _ _
  · intro r hr hc
    apply hnc.1
    rw [← hc]
    exact List.mem_map_of_mem _ hr

lemma createPass_cons_progress (e0 e1 : ℕ) (b0 b1 : Box)
    (P2 : List ((ℕ × Box) × (ℕ × Box))) (t : Table) (acc : List (ℕ × ℕ × ℕ))
    (n : ℕ)
    (hint : intersect (b0.inset createOffset) (b1.inset createOffset) = true)
    (habs : tlookup t (e0, e1) = none) (hne : e0 ≠ e1) :
    tlookup (createPass (((e0, b0), (e1, b1)) :: P2) t acc n).1 (e0, e1)
        = some n ∧
    tlookup (createPass (((e0, b0), (e1, b1)) :: P2) t acc n).1 (e1, e0)
        = some n ∧
    (n, e0, e1) ∈ (createPass (((e0, b0), (e1, b1)) :: P2) t acc n).2.1 := by
  have hpres : ¬((tlookup t (e0, e1)).isSome = true) := by
    rw [habs]
    simp
  have hpair1 : ((e0, e1) : ℕ × ℕ) ≠ (e1, e0) :=
    fun hc => hne (congrArg Prod.fst hc)
  have h1' : tlookup (tinsert (tinsert t (e0, e1) n) (e1, e0) n) (e0, e1)
      = some n := by
    rw [tlookup_tinsert, if_neg hpair1, tlookup_tinsert, if_pos rfl]
  have h2' : tlookup (tinsert (tinsert t (e0, e1) n) (e1, e0) n) (e1, e0)
      = some n := by
    rw [tlookup_tinsert, if_pos rfl]
  obtain ⟨k1, k2, _⟩ := createPass_pres_some e0 e1 n P2
    (tinsert (tinsert t (e0, e1) n) (e1, e0) n) (acc ++ [(n, e0, e1)]) (n + 1)
    h1' h2'
  simp only [createPass, if_pos hint, if_neg hpres]
  exact ⟨k1, k2, createPass_acc_sub P2 _ _ _ _
    (List.mem_append_right _ (List.mem_singleton.mpr rfl))⟩

lemma createPass_cons_skip (e0 e1 : ℕ) (b0 b1 : Box)
    (P2 : List ((ℕ × Box) × (ℕ × Box))) (t : Table) (acc : List (ℕ × ℕ × ℕ))
    (n : ℕ)
    (hint : intersect (b0.inset createOffset) (b1.inset createOffset) = false) :
    createPass (((e0, b0), (e1, b1)) :: P2) t acc n = createPass P2 t acc n := by
  have h' : ¬(intersect (b0.inset createOffset) (b1.inset createOffset)
      = true) := by
    rw [hint]
    exact Bool.false_ne_true
  simp only [createPass, if_neg h']

lemma bpCreate (s : BpState) (e0 e1 : ℕ) (b0 b1 : Box)
    (hnda : (s.aabbs.map Prod.fst).Nodup)
    (hmem : ((e0, b0), (e1, b1)) ∈ orderedPairs s.aabbs)
    (habs1 : tlookup s.table (e0, e1) = none)
    (habs2 : tlookup s.table (e1, e0) = none) :
    ((tlookup (broadphase_update s).table (e0, e1)).isSome
        = intersect (b0.inset createOffset) (b1.inset createOffset)) ∧
    ∀ k, tlookup (broadphase_update s).table (e0, e1) = some k →
      tlookup (broadphase_update s).table (e1, e0) = some k ∧
      (k, e0, e1) ∈ (broadphase_update s).rels := by
  obtain ⟨hne01, P1, P2, hsplit, hP1, hP2⟩ :=
    orderedPairs_split e0 e1 b0 b1 s.aabbs hnda hmem
  have hd1 : tlookup (destroyPass (bpAabbGet s) s.rels s.table).1 (e0, e1)
      = none := destroyPass_none _ _ s.rels s.table habs1
  have hd2 : tlookup (destroyPass (bpAabbGet s) s.rels s.table).1 (e1, e0)
      = none := destroyPass_none _ _ s.rels s.table habs2
  obtain ⟨n1, n2⟩ := createPass_none_pres e0 e1 P1
    (destroyPass (bpAabbGet s) s.rels s.table).1 [] s.nextId hd1 hd2
    (fun q hq hhit => False.elim (by
      rcases hhit with h | h
      · exact (hP1 q hq).1 h
      · exact (hP1 q hq).2 h))
  have htab : (broadphase_update s).table
      = (createPass (((e0, b0), (e1, b1)) :: P2)
          (createPass P1 (destroyPass (bpAabbGet s) s.rels s.table).1 []
            s.nextId).1
          (createPass P1 (destroyPass (bpAabbGet s) s.rels s.table).1 []
            s.nextId).2.1
          (createPass P1 (destroyPass (bpAabbGet s) s.rels s.table).1 []
            s.nextId).2.2).1 := by
    show (createPass (orderedPairs s.aabbs)
        (destroyPass (bpAabbGet s) s.rels s.table).1 [] s.nextId).1 = _
    rw [hsplit, createPass_append]
  by_cases hint : intersect (b0.inset createOffset) (b1.inset createOffset)
  · obtain ⟨hp1, hp2, hp3⟩ := createPass_cons_progress e0 e1 b0 b1 P2
      (createPass P1 (destroyPass (bpAabbGet s) s.rels s.table).1 []
        s.nextId).1
      (createPass P1 (destroyPass (bpAabbGet s) s.rels s.table).1 []
        s.nextId).2.1
      (createPass P1 (destroyPass (bpAabbGet s) s.rels s.table).1 []
        s.nextId).2.2 hint n1 hne01
    constructor
    · rw [htab, hp1, hint]
      rfl
    · intro k hk
      rw [htab, hp1] at hk
      have hkv := Option.some.inj hk
      constructor
      · rw [htab, hp2]
        exact congrArg some hkv
      · show (k, e0, e1) ∈ s.rels.filter (fun r =>
          decide (r.1 ∉ (destroyPass (bpAabbGet s) s.rels s.table).2))
            ++ (createPass (orderedPairs s.aabbs)
              (destroyPass (bpAabbGet s) s.rels s.table).1 [] s.nextId).2.1
        rw [hsplit, createPass_append]
        apply List.mem_append_right
        rw [← hkv]
        exact hp3
  · have hfalse : intersect (b0.inset createOffset) (b1.inset createOffset)
        = false := by
      cases hc : intersect (b0.inset createOffset) (b1.inset createOffset)
      · rfl
      · exact absurd hc hint
    have hskip := createPass_cons_skip e0 e1 b0 b1 P2
      (createPass P1 (destroyPass (bpAabbGet s) s.rels s.table).1 []
        s.nextId).1
      (createPass P1 (destroyPass (bpAabbGet s) s.rels s.table).1 []
        s.nextId).2.1
      (createPass P1 (destroyPass (bpAabbGet s) s.rels s.table).1 []
        s.nextId).2.2 hfalse
    obtain ⟨m1, m2⟩ := createPass_none_pres e0 e1 P2
      (createPass P1 (destroyPass (bpAabbGet s) s.rels s.table).1 []
        s.nextId).1
      (createPass P1 (destroyPass (bpAabbGet s) s.rels s.table).1 []
        s.nextId).2.1
      (createPass P1 (destroyPass (bpAabbGet s) s.rels s.table).1 []
        s.nextId).2.2 n1 n2
      (fun q hq hhit => False.elim (by
        rcases hhit with h | h
        · exact (hP2 q hq).1 h
        · exact (hP2 q hq).2 h))
    constructor
    · rw [htab, hskip, m1, hfalse]
      rfl
    · intro k hk
      rw [htab, hskip, m1] at hk
      exact absurd hk (by simp)

lemma bpDestroyKept (s : BpState) (ent e0 e1 : ℕ) (b0 b1 : Box)
    (hndr : (s.rels.map (fun r => r.1)).Nodup)
    (hmemr : (ent, e0, e1) ∈ s.rels)
    (ht1 : tlookup s.table (e0, e1) = some ent)
    (ht2 : tlookup s.table (e1, e0) = some ent)
    (hsep : intersect (b0.inset sepOffset) (b1.inset sepOffset) = true)
    (hag0 : bpAabbGet s e0 = some b0)
    (hag1 : bpAabbGet s e1 = some b1) :
    tlookup (broadphase_update s).table (e0, e1) = some ent ∧
    tlookup (broadphase_update s).table (e1, e0) = some ent ∧
    (ent, e0, e1) ∈ (broadphase_update s).rels ∧
    (∀ r ∈ (broadphase_update s).rels, r ∉ s.rels →
      (r.2.1, r.2.2) ≠ ((e0, e1) : ℕ × ℕ)
        ∧ (r.2.1, r.2.2) ≠ ((e1, e0) : ℕ × ℕ)) := by
  obtain ⟨R1, R2, hsplitR⟩ := List.append_of_mem hmemr
  have hnd' : ((R1 ++ (ent, e0, e1) :: R2).map (fun r => r.1)).Nodup := by
    rw [← hsplitR]
    exact hndr
  obtain ⟨hR1, hR2⟩ := rels_fst_split R1 R2 ent e0 e1 hnd'
  have hdap := destroyPass_append (bpAabbGet s) R1 ((ent, e0, e1) :: R2) s.table
  obtain ⟨p1, p2, pdes⟩ :=
    destroyPass_pres (bpAabbGet s) ent e0 e1 R1 s.table hR1 ht1 ht2
  have hhead : destroyPass (bpAabbGet s) ((ent, e0, e1) :: R2)
      (destroyPass (bpAabbGet s) R1 s.table).1
      = destroyPass (bpAabbGet s) R2
          (destroyPass (bpAabbGet s) R1 s.table).1 := by
    simp only [destroyPass, if_pos p1, hag0, hag1, if_pos hsep]
  obtain ⟨q1, q2, qdes⟩ := destroyPass_pres (bpAabbGet s) ent e0 e1 R2
    (destroyPass (bpAabbGet s) R1 s.table).1 hR2 p1 p2
  have hdfst : (destroyPass (bpAabbGet s) s.rels s.table).1
      = (destroyPass (bpAabbGet s) R2
          (destroyPass (bpAabbGet s) R1 s.table).1).1 := by
    rw [hsplitR, hdap, hhead]
  have hdsnd : ent ∉ (destroyPass (bpAabbGet s) s.rels s.table).2 := by
    rw [hsplitR, hdap, hhead]
    intro hc
    rcases List.mem_append.mp hc with h | h
    · exact pdes h
    · exact qdes h
  obtain ⟨k1, k2, k3⟩ := createPass_pres_some e0 e1 ent (orderedPairs s.aabbs)
    (destroyPass (bpAabbGet s) s.rels s.table).1 [] s.nextId
    (by rw [hdfst]; exact q1) (by rw [hdfst]; exact q2)
  refine ⟨k1, k2, ?_, ?_⟩
  · show (ent, e0, e1) ∈ s.rels.filter (fun r =>
      decide (r.1 ∉ (destroyPass (bpAabbGet s) s.rels s.table).2))
        ++ (createPass (orderedPairs s.aabbs)
          (destroyPass (bpAabbGet s) s.rels s.table).1 [] s.nextId).2.1
    apply List.mem_append_left
    exact List.mem_filter.mpr ⟨hmemr, decide_eq_true hdsnd⟩
  · intro r hr hnotin
    rcases List.mem_append.mp hr with hfil | hnew
    · exact absurd (List.mem_filter.mp hfil).1 hnotin
    · rcases k3 r hnew with hacc | hok
      · exact absurd hacc (List.not_mem_nil _)
      · exact hok

lemma bpDestroyGone (s : BpState) (ent e0 e1 : ℕ) (b0 b1 : Box)
    (hnda : (s.aabbs.map Prod.fst).Nodup)
    (hndr : (s.rels.map (fun r => r.1)).Nodup)
    (hmemr : (ent, e0, e1) ∈ s.rels)
    (ht1 : tlookup s.table (e0, e1) = some ent)
    (ht2 : tlookup s.table (e1, e0) = some ent)
    (hsep : intersect (b0.inset sepOffset) (b1.inset sepOffset) = false)
    (hag0 : bpAabbGet s e0 = some b0)
    (hag1 : bpAabbGet s e1 = some b1)
    (hA : (e0, b0) ∈ s.aabbs) (hB : (e1, b1) ∈ s.aabbs)
    (hfresh : ent < s.nextId) :
    tlookup (broadphase_update s).table (e0, e1) = none ∧
    tlookup (broadphase_update s).table (e1, e0) = none ∧
    ent ∈ (destroyPass (bpAabbGet s) s.rels s.table).2 ∧
    ∀ r ∈ (broadphase_update s).rels, r.1 ≠ ent := by
  obtain ⟨R1, R2, hsplitR⟩ := List.append_of_mem hmemr
  have hnd' : ((R1 ++ (ent, e0, e1) :: R2).map (fun r => r.1)).Nodup := by
    rw [← hsplitR]
    exact hndr
  obtain ⟨hR1, hR2⟩ := rels_fst_split R1 R2 ent e0 e1 hnd'
  have hdap := destroyPass_append (bpAabbGet s) R1 ((ent, e0, e1) :: R2) s.table
  obtain ⟨p1, p2, pdes⟩ :=
    destroyPass_pres (bpAabbGet s) ent e0 e1 R1 s.table hR1 ht1 ht2
  have hsep' : ¬(intersect (b0.inset sepOffset) (b1.inset sepOffset)
      = true) := by
    rw [hsep]
    exact Bool.false_ne_true
  have hhead : destroyPass (bpAabbGet s) ((ent, e0, e1) :: R2)
      (destroyPass (bpAabbGet s) R1 s.table).1
      = ((destroyPass (bpAabbGet s) R2
            (terase (terase (destroyPass (bpAabbGet s) R1 s.table).1 (e0, e1))
              (e1, e0))).1,
         ent :: (destroyPass (bpAabbGet s) R2
            (terase (terase (destroyPass (bpAabbGet s) R1 s.table).1 (e0, e1))
              (e1, e0))).2) := by
    simp only [destroyPass, if_pos p1, hag0, hag1, if_neg hsep']
  have hn1 : tlookup (terase (terase (destroyPass (bpAabbGet s) R1 s.table).1
      (e0, e1)) (e1, e0)) (e0, e1) = none := by
    rw [tlookup_terase]
    by_cases h : ((e0, e1) : ℕ × ℕ) = (e1, e0)
    · rw [if_pos h]
    · rw [if_neg h, tlookup_terase, if_pos rfl]
  have hn2 : tlookup (terase (terase (destroyPass (bpAabbGet s) R1 s.table).1
      (e0, e1)) (e1, e0)) (e1, e0) = none := by
    rw [tlookup_terase, if_pos rfl]
  have hn1' := destroyPass_none (bpAabbGet s) (e0, e1) R2 _ hn1
  have hn2' := destroyPass_none (bpAabbGet s) (e1, e0) R2 _ hn2
  have hdfst : (destroyPass (bpAabbGet s) s.rels s.table).1
      = (destroyPass (bpAabbGet s) R2
          (terase (terase (destroyPass (bpAabbGet s) R1 s.table).1 (e0, e1))
            (e1, e0))).1 := by
    rw [hsplitR, hdap, hhead]
  have hdsnd : ent ∈ (destroyPass (bpAabbGet s) s.rels s.table).2 := by
    rw [hsplitR, hdap, hhead]
    exact List.mem_append_right _ (List.mem_cons_self _ _)
  have hnocreate : ∀ q ∈ orderedPairs s.aabbs,
      ((q.1.1, q.2.1) = ((e0, e1) : ℕ × ℕ)
        ∨ (q.1.1, q.2.1) = ((e1, e0) : ℕ × ℕ)) →
      intersect (q.1.2.inset createOffset) (q.2.2.inset createOffset)
        = false := by
    intro q hq hhit
    obtain ⟨hqa, hqb⟩ := orderedPairs_mem_both s.aabbs q.1 q.2
      (by simpa using hq)
    have hbase : intersect (b0.inset createOffset) (b1.inset createOffset)
        = false := by
      cases hc : intersect (b0.inset createOffset) (b1.inset createOffset)
      · rfl
      · exact absurd (intersect_mono b0 b1 hc) hsep'
    rcases hhit with h | h
    · have he0 : q.1.1 = e0 := congrArg Prod.fst h
      have he1 : q.2.1 = e1 := congrArg Prod.snd h
      have hb0 : q.1.2 = b0 := key_mem_unique s.aabbs hnda e0 q.1.2 b0
        (by rw [← he0]; exact hqa) hA
      have hb1 : q.2.2 = b1 := key_mem_unique s.aabbs hnda e1 q.2.2 b1
        (by rw [← he1]; exact hqb) hB
      rw [hb0, hb1]
      exact hbase
    · have he0 : q.1.1 = e1 := congrArg Prod.fst h
      have he1 : q.2.1 = e0 := congrArg Prod.snd h
      have hb0 : q.1.2 = b1 := key_mem_unique s.aabbs hnda e1 q.1.2 b1
        (by rw [← he0]; exact hqa) hB
      have hb1 : q.2.2 = b0 := key_mem_unique s.aabbs hnda e0 q.2.2 b0
        (by rw [← he1]; exact hqb) hA
      rw [hb0, hb1, intersect_comm]
      exact hbase
  obtain ⟨m1, m2⟩ := createPass_none_pres e0 e1 (orderedPairs s.aabbs)
    (destroyPass (bpAabbGet s) s.rels s.table).1 [] s.nextId
    (by rw [hdfst]; exact hn1') (by rw [hdfst]; exact hn2') hnocreate
  refine ⟨m1, m2, hdsnd, ?_⟩
  intro r hr
  rcases List.mem_append.mp hr with hfil | hnew
  · obtain ⟨hrs, hcond⟩ := List.mem_filter.mp hfil
    intro hc
    have hnot : r.1 ∉ (destroyPass (bpAabbGet s) s.rels s.table).2 :=
      of_decide_eq_true hcond
    rw [hc] at hnot
    exact hnot hdsnd
  · rcases createPass_ids (orderedPairs s.aabbs)
      (destroyPass (bpAabbGet s) s.rels s.table).1 [] s.nextId r hnew with
      hacc | hge
    · exact absurd hacc (List.not_mem_nil _)
    · intro hc
      rw [hc] at hge
      omega

/-- C2: `broadphase::update` implements hysteresis with asymmetric margins.
(a) A pair of AABB-bearing entities absent from the pair table is created
exactly when the two AABBs, each inflated by `contact_breaking_threshold`
(inset by `createOffset`), intersect — and then both orderings map to the new
relation, which is appended to the relation components.  (b) A tracked pair
is kept exactly when the two AABBs, each inflated by
`2 * contact_breaking_threshold` (inset by `sepOffset`), still intersect:
if they do, both table orderings and the relation survive; if not, both
orderings are erased and no surviving relation carries the destroyed entity.
(c) Hence a pair whose gap lies strictly between the two margins (the
create-inset boxes disjoint, the sep-inset boxes intersecting) is kept but
no new relation is created for it. -/
theorem C2_broadphase_hysteresis :
    (∀ (s : BpState) (e0 e1 : ℕ) (b0 b1 : Box),
      (s.aabbs.map Prod.fst).Nodup →
      ((e0, b0), (e1, b1)) ∈ orderedPairs s.aabbs →
      tlookup s.table (e0, e1) = none →
      tlookup s.table (e1, e0) = none →
      ((tlookup (broadphase_update s).table (e0, e1)).isSome
          = intersect (b0.inset createOffset) (b1.inset createOffset)) ∧
      (∀ k, tlookup (broadphase_update s).table (e0, e1) = some k →
        tlookup (broadphase_update s).table (e1, e0) = some k ∧
        (k, e0, e1) ∈ (broadphase_update s).rels)) ∧
    (∀ (s : BpState) (ent e0 e1 : ℕ) (b0 b1 : Box),
      (s.aabbs.map Prod.fst).Nodup →
      (s.rels.map (fun r => r.1)).Nodup →
      (ent, e0, e1) ∈ s.rels →
      tlookup s.table (e0, e1) = some ent →
      tlookup s.table (e1, e0) = some ent →
      (e0, b0) ∈ s.aabbs → (e1, b1) ∈ s.aabbs →
      ent < s.nextId →
      (intersect (b0.inset sepOffset) (b1.inset sepOffset) = true →
        tlookup (broadphase_update s).table (e0, e1) = some ent ∧
        tlookup (broadphase_update s).table (e1, e0) = some ent ∧
        (ent, e0, e1) ∈ (broadphase_update s).rels) ∧
      (intersect (b0.inset sepOffset) (b1.inset sepOffset) = false →
        tlookup (broadphase_update s).table (e0, e1) = none ∧
        tlookup (broadphase_update s).table (e1, e0) = none ∧
        ∀ r ∈ (broadphase_update s).rels, r.1 ≠ ent)) ∧
    (∀ (s : BpState) (ent e0 e1 : ℕ) (b0 b1 : Box),
      (s.aabbs.map Prod.fst).Nodup →
      (s.rels.map (fun r => r.1)).Nodup →
      (ent, e0, e1) ∈ s.rels →
      tlookup s.table (e0, e1) = some ent →
      tlookup s.table (e1, e0) = some ent →
      (e0, b0) ∈ s.aabbs → (e1, b1) ∈ s.aabbs →
      intersect (b0.inset createOffset) (b1.inset createOffset) = false →
      intersect (b0.inset sepOffset) (b1.inset sepOffset) = true →
      tlookup (broadphase_update s).table (e0, e1) = some ent ∧
      (ent, e0, e1) ∈ (broadphase_update s).rels ∧
      ∀ r ∈ (broadphase_update s).rels, r ∉ s.rels →
        (r.2.1, r.2.2) ≠ ((e0, e1) : ℕ × ℕ)
          ∧ (r.2.1, r.2.2) ≠ ((e1, e0) : ℕ × ℕ)) := by
  refine ⟨?_, ?_, ?_⟩
  · intro s e0 e1 b0 b1 hnda hmem habs1 habs2
    exact bpCreate s e0 e1 b0 b1 hnda hmem habs1 habs2
  · intro s ent e0 e1 b0 b1 hnda hndr hmemr ht1 ht2 hA hB hfresh
    have hag0 : bpAabbGet s e0 = some b0 := findbox_eq s.aabbs e0 b0 hnda hA
    have hag1 : bpAabbGet s e1 = some b1 := findbox_eq s.aabbs e1 b1 hnda hB
    constructor
    · intro hsep
      obtain ⟨k1, k2, k3, _⟩ :=
        bpDestroyKept s ent e0 e1 b0 b1 hndr hmemr ht1 ht2 hsep hag0 hag1
      exact ⟨k1, k2, k3⟩
    · intro hsep
      obtain ⟨m1, m2, _, m4⟩ := bpDestroyGone s ent e0 e1 b0 b1 hnda hndr
        hmemr ht1 ht2 hsep hag0 hag1 hA hB hfresh
      exact ⟨m1, m2, m4⟩
  · intro s ent e0 e1 b0 b1 hnda hndr hmemr ht1 ht2 hA hB _ hsep
    have hag0 : bpAabbGet s e0 = some b0 := findbox_eq s.aabbs e0 b0 hnda hA
    have hag1 : bpAabbGet s e1 = some b1 := findbox_eq s.aabbs e1 b1 hnda hB
    obtain ⟨k1, _, k3, k4⟩ :=
      bpDestroyKept s ent e0 e1 b0 b1 hndr hmemr ht1 ht2 hsep hag0 hag1
    exact ⟨k1, k3, k4⟩

/-- Witness for C2 at the concrete broadphase states `sCreate` (overlapping
boxes, empty table: a pair is created), `sDestroy` (boxes far apart: the
tracked pair is destroyed) and `sWindow` (gap inside the hysteresis window:
the tracked pair is kept, nothing new is created). -/
theorem C2_witness :
    ((tlookup (broadphase_update sCreate).table (1, 2)).isSome
        = intersect (boxUnit.inset createOffset) (boxShift.inset createOffset))
      ∧
    (tlookup (broadphase_update sDestroy).table (1, 2) = none ∧
      ∀ r ∈ (broadphase_update sDestroy).rels, r.1 ≠ 10) ∧
    (tlookup (broadphase_update sWindow).table (1, 2) = some 10 ∧
      (10, 1, 2) ∈ (broadphase_update sWindow).rels) := by
  refine ⟨?_, ?_, ?_⟩
  · exact (C2_broadphase_hysteresis.1 sCreate 1 2 boxUnit boxShift
      (by decide) (by decide) (by decide) (by decide)).1
  · have h := ((C2_broadphase_hysteresis.2.1 sDestroy 10 1 2 boxUnit boxFar
      (by decide) (by decide) (by decide) (by decide) (by decide) (by decide)
      (by decide) (by decide)).2) (by decide)
    exact ⟨h.1, h.2.2⟩
  · have h := C2_broadphase_hysteresis.2.2 sWindow 10 1 2 boxUnit boxGap
      (by decide) (by decide) (by decide) (by decide) (by decide) (by decide)
      (by decide) (by decide) (by decide)
    exact ⟨h.1, h.2.1⟩

/-- C3 (amended): during the broadphase destroy pass, a tracked pair one of
whose bodies no longer has an AABB component is NOT destroyed: the
`b0 && b1 && !intersect` guard is false, so the relation survives the pass
and both table orderings still map to the relation entity afterwards. -/
theorem C3_missing_aabb_keeps_pair (s : BpState) (ent e0 e1 : ℕ)
    (hndr : (s.rels.map (fun r => r.1)).Nodup)
    (hmemr : (ent, e0, e1) ∈ s.rels)
    (ht1 : tlookup s.table (e0, e1) = some ent)
    (ht2 : tlookup s.table (e1, e0) = some ent)
    (hmiss : bpAabbGet s e0 = none ∨ bpAabbGet s e1 = none) :
    tlookup (broadphase_update s).table (e0, e1) = some ent ∧
    tlookup (broadphase_update s).table (e1, e0) = some ent ∧
    (ent, e0, e1) ∈ (broadphase_update s).rels := by
  obtain ⟨R1, R2, hsplitR⟩ := List.append_of_mem hmemr
  have hnd' : ((R1 ++ (ent, e0, e1) :: R2).map (fun r => r.1)).Nodup := by
    rw [← hsplitR]
    exact hndr
  obtain ⟨hR1, hR2⟩ := rels_fst_split R1 R2 ent e0 e1 hnd'
  have hdap := destroyPass_append (bpAabbGet s) R1 ((ent, e0, e1) :: R2) s.table
  obtain ⟨p1, p2, pdes⟩ :=
    destroyPass_pres (bpAabbGet s) ent e0 e1 R1 s.table hR1 ht1 ht2
  have hhead : destroyPass (bpAabbGet s) ((ent, e0, e1) :: R2)
      (destroyPass (bpAabbGet s) R1 s.table).1
      = destroyPass (bpAabbGet s) R2
          (destroyPass (bpAabbGet s) R1 s.table).1 := by
    rcases hmiss with h0 | h1
    · simp only [destroyPass, if_pos p1, h0]
    · rcases hA : bpAabbGet s e0 with _ | b0 <;>
        simp only [destroyPass, if_pos p1, hA, h1]
  obtain ⟨q1, q2, qdes⟩ := destroyPass_pres (bpAabbGet s) ent e0 e1 R2
    (destroyPass (bpAabbGet s) R1 s.table).1 hR2 p1 p2
  have hdfst : (destroyPass (bpAabbGet s) s.rels s.table).1
      = (destroyPass (bpAabbGet s) R2
          (destroyPass (bpAabbGet s) R1 s.table).1).1 := by
    rw [hsplitR, hdap, hhead]
  have hdsnd : ent ∉ (destroyPass (bpAabbGet s) s.rels s.table).2 := by
    rw [hsplitR, hdap, hhead]
    intro hc
    rcases List.mem_append.mp hc with h | h
    · exact pdes h
    · exact qdes h
  obtain ⟨k1, k2, _⟩ := createPass_pres_some e0 e1 ent (orderedPairs s.aabbs)
    (destroyPass (bpAabbGet s) s.rels s.table).1 [] s.nextId
    (by rw [hdfst]; exact q1) (by rw [hdfst]; exact q2)
  refine ⟨k1, k2, ?_⟩
  show (ent, e0, e1) ∈ s.rels.filter (fun r =>
    decide (r.1 ∉ (destroyPass (bpAabbGet s) s.rels s.table).2))
      ++ (createPass (orderedPairs s.aabbs)
        (destroyPass (bpAabbGet s) s.rels s.table).1 [] s.nextId).2.1
  apply List.mem_append_left
  exact List.mem_filter.mpr ⟨hmemr, decide_eq_true hdsnd⟩

/-- Witness for the amended C3 at `sC3`, whose body 2 carries no AABB: the
tracked pair `(1,2)` and its relation entity 10 survive the update. -/
theorem C3_amended_witness :
    tlookup (broadphase_update sC3).table (2, 1) = some 10 ∧
    (10, 1, 2) ∈ (broadphase_update sC3).rels := by
  have h := C3_missing_aabb_keeps_pair sC3 10 1 2 (by decide) (by decide)
    (by decide) (by decide) (Or.inr (by decide))
  exact ⟨h.2.1, h.2.2⟩

end EdynModel
